import Mathlib

/-!
# Patient record store (`patientrecords.c`)

A shallow embedding of the store operations of `patientrecords.c` and the
properties of its specification.

Modelling conventions.

* A C string is the `String` of the bytes before its terminating NUL; string
  arguments are never `NULL`.  `strcmp(a, b) == 0` is equality of the two
  strings and `strlen` is the number of bytes (`String.utf8ByteSize`).
* `Patient *patients[MAX_PATIENTS]` is a function from `Fin MAX_PATIENTS` to
  `Option Patient`: `none` is the `NULL` pointer, `some p` a pointer to a heap
  record with contents `p`.  Every record is allocated by its own `malloc` in
  `add_patient`, so no two slots alias.
* An `int` is an integer between `INT_MIN` and `INT_MAX` (32 bits).  `count++`
  in `add_patient` runs only below `MAX_PATIENTS` and cannot overflow.
  `count--` in `remove_patient` wraps modulo `2 ^ 32` (`wrapInt`), which is
  what the compiled code does at `INT_MIN`.
* A function that mutates `*system` returns the new store.  The `bool` result
  and the line written to standard output are returned next to it.
* `safe_malloc` and `safe_strdup` either succeed or terminate the process, so
  every call of `add_patient` that returns has allocated its record.  `realloc`
  in `update_medical_history` may return `NULL`, after which the function
  returns `false`: that outcome is the parameter `realloc_ok`.
* A `for (int i = 0; i < MAX_PATIENTS; i++)` loop is a recursive function of
  the index `i`, structurally recursive on a step budget that starts at
  `MAX_PATIENTS`; the loop test `i < MAX_PATIENTS` is kept.
-/

namespace PatientRecords

/-! ## Data model -/

/-- The constant `MAX_PATIENTS` (line 6). -/
def MAX_PATIENTS : Nat := 1000

/-- The constant `MAX_HISTORY_LENGTH` (line 7). -/
def MAX_HISTORY_LENGTH : Nat := 4096

/-- The least value of a 32-bit `int`. -/
def INT_MIN : Int := -2147483648

/-- The greatest value of a 32-bit `int`. -/
def INT_MAX : Int := 2147483647

/-- The value an `int` computation leaves when its exact result is `x`:
`x` reduced modulo `2 ^ 32` into the range from `INT_MIN` to `INT_MAX`. -/
def wrapInt (x : Int) : Int := (x - INT_MIN) % 4294967296 + INT_MIN

/-- The library function `strlen`: the number of bytes of a C string. -/
def strlen (s : String) : Nat := s.utf8ByteSize

/-- The record `Patient` (lines 9-13). -/
structure Patient where
  name : String
  id : String
  medical_history : String
deriving DecidableEq, Repr

/-- The record `HospitalSystem` (lines 15-18). -/
structure HospitalSystem where
  patients : Fin MAX_PATIENTS → Option Patient
  count : Int

/-- The lines the store operations write to standard output. -/
inductive Message where
  /-- The capacity line, "Maximum capacity reached", of `add_patient` (line 53). -/
  | capacityReached
  /-- The line "Patient not found." (lines 93 and 119). -/
  | patientNotFound
  /-- The line "Medical history too long." of `update_medical_history` (line 99). -/
  | historyTooLong
  /-- The line "Failed to update medical history due to memory constraints."
  (line 106). -/
  | reallocFailed
deriving DecidableEq, Repr

/-- What a `bool` operation leaves behind: the store, the returned `bool` and
the line it printed, if any. -/
structure Outcome where
  system : HospitalSystem
  ret : Bool
  printed : Option Message

/-! ## Operations -/

/-- The loop of `init_hospital_system` (lines 23-25), from index `i`. -/
def init_loop : Nat → Nat → HospitalSystem → HospitalSystem
  | 0, _, system => system
  | fuel + 1, i, system =>
    if h : i < MAX_PATIENTS then
      init_loop fuel (i + 1)
        { system with patients := Function.update system.patients ⟨i, h⟩ none }
    else system

/-- The function `init_hospital_system` (lines 21-26).  The argument is the
content of `*system` before the call, which the function overwrites. -/
def init_hospital_system (system : HospitalSystem) : HospitalSystem :=
  init_loop MAX_PATIENTS 0 { system with count := 0 }

/-- The function `safe_strdup` (lines 39-48) on a non-`NULL` string: a copy
with the same contents. -/
def safe_strdup (str : String) : String := str

/-- The slot search of `add_patient` (lines 63-76), from index `i`: the first
`NULL` slot receives `new_patient`; the fall-through returns `false`. -/
def add_patient_loop (system : HospitalSystem) (new_patient : Patient) :
    Nat → Nat → Outcome
  | 0, _ => ⟨system, false, none⟩
  | fuel + 1, i =>
    if h : i < MAX_PATIENTS then
      match system.patients ⟨i, h⟩ with
      | none =>
        ⟨{ patients := Function.update system.patients ⟨i, h⟩ (some new_patient),
           count := system.count + 1 }, true, none⟩
      | some _ => add_patient_loop system new_patient fuel (i + 1)
    else ⟨system, false, none⟩

/-- The function `add_patient` (lines 51-77). -/
def add_patient (system : HospitalSystem) (name id medical_history : String) : Outcome :=
  if system.count ≥ (MAX_PATIENTS : Int) then
    ⟨system, false, some Message.capacityReached⟩
  else
    add_patient_loop system
      { name := safe_strdup name, id := safe_strdup id,
        medical_history := safe_strdup medical_history }
      MAX_PATIENTS 0

/-- The loop of `find_patient` (lines 81-86), from index `i`. -/
def find_patient_loop (system : HospitalSystem) (id : String) : Nat → Nat → Int
  | 0, _ => -1
  | fuel + 1, i =>
    if h : i < MAX_PATIENTS then
      match system.patients ⟨i, h⟩ with
      | some p =>
        if p.id = id then (i : Int) else find_patient_loop system id fuel (i + 1)
      | none => find_patient_loop system id fuel (i + 1)
    else -1

/-- The function `find_patient` (lines 80-87): an index, or `-1`. -/
def find_patient (system : HospitalSystem) (id : String) : Int :=
  find_patient_loop system id MAX_PATIENTS 0

/-- The function `update_medical_history` (lines 90-113).  `realloc_ok` tells
whether `realloc` (line 104) returned a block.  The write through
`system->patients[index]` changes the slot whose number is `index`;
`find_patient` only returns occupied slots, so the record is there. -/
def update_medical_history (realloc_ok : Bool) (system : HospitalSystem)
    (id new_history : String) : Outcome :=
  let index := find_patient system id
  if index = -1 then
    ⟨system, false, some Message.patientNotFound⟩
  else if strlen new_history > MAX_HISTORY_LENGTH then
    ⟨system, false, some Message.historyTooLong⟩
  else if realloc_ok = false then
    ⟨system, false, some Message.reallocFailed⟩
  else
    ⟨{ system with
        patients := fun j =>
          if (j.val : Int) = index then
            (system.patients j).map fun p => { p with medical_history := new_history }
          else system.patients j }, true, none⟩

/-- The function `remove_patient` (lines 116-131). -/
def remove_patient (system : HospitalSystem) (id : String) : Outcome :=
  let index := find_patient system id
  if index = -1 then
    ⟨system, false, some Message.patientNotFound⟩
  else
    ⟨{ patients := fun j => if (j.val : Int) = index then none else system.patients j,
       count := wrapInt (system.count - 1) }, true, none⟩

/-- The loop of `cleanup_system` (lines 149-153), from index `i`. -/
def cleanup_loop : Nat → Nat → HospitalSystem → HospitalSystem
  | 0, _, system => system
  | fuel + 1, i, system =>
    if h : i < MAX_PATIENTS then
      match system.patients ⟨i, h⟩ with
      | some p => cleanup_loop fuel (i + 1) (remove_patient system p.id).system
      | none => cleanup_loop fuel (i + 1) system
    else system

/-- The function `cleanup_system` (lines 148-154). -/
def cleanup_system (system : HospitalSystem) : HospitalSystem :=
  cleanup_loop MAX_PATIENTS 0 system

/-! ## Reachable stores and derived notions -/

/-- The stores reachable from `init_hospital_system` by calls of `add_patient`,
`update_medical_history`, `remove_patient` and `cleanup_system`. -/
inductive Reachable : HospitalSystem → Prop
  | init (s0 : HospitalSystem) : Reachable (init_hospital_system s0)
  | add {s : HospitalSystem} (name id history : String) :
      Reachable s → Reachable (add_patient s name id history).system
  | update {s : HospitalSystem} (realloc_ok : Bool) (id history : String) :
      Reachable s → Reachable (update_medical_history realloc_ok s id history).system
  | remove {s : HospitalSystem} (id : String) :
      Reachable s → Reachable (remove_patient s id).system
  | cleanup {s : HospitalSystem} : Reachable s → Reachable (cleanup_system s)

/-- The number of non-empty slots of `patients[0..MAX_PATIENTS-1]`. -/
def occupied (system : HospitalSystem) : Nat :=
  (Finset.univ.filter fun j => (system.patients j).isSome).card

/-- Slot `j` is occupied by a record whose id equals `id`. -/
def holdsId (system : HospitalSystem) (id : String) (j : Fin MAX_PATIENTS) : Prop :=
  match system.patients j with
  | some p => p.id = id
  | none => False

instance (system : HospitalSystem) (id : String) (j : Fin MAX_PATIENTS) :
    Decidable (holdsId system id j) :=
  match h : system.patients j with
  | some p => decidable_of_iff (p.id = id) (by simp [holdsId, h])
  | none => isFalse (by simp [holdsId, h])

/-- The store with every slot empty and `count = 0`. -/
def emptySystem : HospitalSystem := ⟨fun _ => none, 0⟩

/-- The value `r` is a correct answer of the scan that starts at index `i`:
`-1` when no slot at or after `i` matches, else the first matching index. -/
def ScanResult (s : HospitalSystem) (id : String) (i : Nat) (r : Int) : Prop :=
  (r = -1 ∧ ∀ j : Fin MAX_PATIENTS, i ≤ j.val → ¬ holdsId s id j) ∨
  (∃ k : Fin MAX_PATIENTS, r = (k.val : Int) ∧ i ≤ k.val ∧ holdsId s id k ∧
      ∀ j : Fin MAX_PATIENTS, i ≤ j.val → j.val < k.val → ¬ holdsId s id j)

/-- Slot `k` is the lowest-indexed empty slot at or after index `i`. -/
def FirstEmptyFrom (s : HospitalSystem) (i : Nat) (k : Fin MAX_PATIENTS) : Prop :=
  i ≤ k.val ∧ s.patients k = none ∧
    ∀ j : Fin MAX_PATIENTS, i ≤ j.val → j.val < k.val → s.patients j ≠ none

/-- The invariant of the store: `count` is the number of occupied slots. -/
def CountInv (s : HospitalSystem) : Prop := s.count = (occupied s : Int)

/-- The stores reachable from `init_hospital_system` by calls in which
`add_patient` is never given the id `x`. -/
inductive ReachableAvoiding (x : String) : HospitalSystem → Prop
  | init (s0 : HospitalSystem) : ReachableAvoiding x (init_hospital_system s0)
  | add {s : HospitalSystem} (name id history : String) : id ≠ x →
      ReachableAvoiding x s → ReachableAvoiding x (add_patient s name id history).system
  | update {s : HospitalSystem} (realloc_ok : Bool) (id history : String) :
      ReachableAvoiding x s →
      ReachableAvoiding x (update_medical_history realloc_ok s id history).system
  | remove {s : HospitalSystem} (id : String) :
      ReachableAvoiding x s → ReachableAvoiding x (remove_patient s id).system
  | cleanup {s : HospitalSystem} : ReachableAvoiding x s → ReachableAvoiding x (cleanup_system s)

/-! ## Example stores -/

/-- One record, id `"P1"`. -/
def storeAnn : HospitalSystem := (add_patient emptySystem "Ann" "P1" "flu").system

/-- Two records with the same id `"P1"`, in slots 0 and 1. -/
def storeAnnBob : HospitalSystem := (add_patient storeAnn "Bob" "P1" "cold").system

/-- A store whose `MAX_PATIENTS` slots are all occupied. -/
def storeFull : HospitalSystem := ⟨fun _ => some ⟨"Ann", "P1", "flu"⟩, MAX_PATIENTS⟩

/-- A history of `MAX_HISTORY_LENGTH + 1` bytes. -/
def longHistory : String := String.mk (List.replicate (MAX_HISTORY_LENGTH + 1) 'x')

/-- Slot 0 and slot 1. -/
def slot0 : Fin MAX_PATIENTS := ⟨0, by decide⟩

def slot1 : Fin MAX_PATIENTS := ⟨1, by decide⟩

/-- A store with one record, id `"P1"`, in slot 0 and `count` at `INT_MIN`. -/
def storeIntMin : HospitalSystem :=
  ⟨Function.update (fun _ => none) ⟨0, by decide⟩ (some ⟨"Ann", "P1", "flu"⟩), INT_MIN⟩

/-- A store whose slots are all occupied although `count` is 0. -/
def storeCrowded : HospitalSystem := ⟨fun _ => some ⟨"Ann", "P1", "flu"⟩, 0⟩

/-! ## Enumeration -/

/-- What `display_patients` prints: the two numbers of the header line and,
in print order, the records whose name, id and medical history it prints. -/
structure Display where
  count : Int
  capacity : Nat
  records : List Patient
deriving DecidableEq, Repr

/-- The loop of `display_patients` (lines 137-144), from index `i`: the
records of the non-`NULL` slots, in slot order. -/
def display_loop (system : HospitalSystem) : Nat → Nat → List Patient
  | 0, _ => []
  | fuel + 1, i =>
    if h : i < MAX_PATIENTS then
      match system.patients ⟨i, h⟩ with
      | some p => p :: display_loop system fuel (i + 1)
      | none => display_loop system fuel (i + 1)
    else []

/-- The function `display_patients` (lines 134-145). -/
def display_patients (system : HospitalSystem) : Display :=
  ⟨system.count, MAX_PATIENTS, display_loop system MAX_PATIENTS 0⟩

/-- No two occupied slots hold records with the same id. -/
def DistinctIds (s : HospitalSystem) : Prop :=
  ∀ (a b : Fin MAX_PATIENTS) (p q : Patient),
    s.patients a = some p → s.patients b = some q → p.id = q.id → a = b

/-! ## The end-to-end run

The calls of the end-to-end scenario, one after the other, from the store that
`init_hospital_system` leaves; `s0` is what `*system` held before and
`realloc_ok` tells whether the `realloc` of the third call returned a block. -/

/-- The first call: `add_patient(&h, "Ann", "P1", "flu")`. -/
def runAddAnn (s0 : HospitalSystem) : Outcome :=
  add_patient (init_hospital_system s0) "Ann" "P1" "flu"

/-- The second call: `add_patient(&h, "Bob", "P2", "cold")`. -/
def runAddBob (s0 : HospitalSystem) : Outcome :=
  add_patient (runAddAnn s0).system "Bob" "P2" "cold"

/-- The third call: `update_medical_history(&h, "P1", "flu, resolved")`. -/
def runUpdate (realloc_ok : Bool) (s0 : HospitalSystem) : Outcome :=
  update_medical_history realloc_ok (runAddBob s0).system "P1" "flu, resolved"

/-- The fourth call: `remove_patient(&h, "P2")`. -/
def runRemove (realloc_ok : Bool) (s0 : HospitalSystem) : Outcome :=
  remove_patient (runUpdate realloc_ok s0).system "P2"

/-! # Theorems -/

/-! ## The lookup loop -/

theorem holdsId_iff (s : HospitalSystem) (id : String) (j : Fin MAX_PATIENTS) :
    holdsId s id j ↔ ∃ p, s.patients j = some p ∧ p.id = id := by
  unfold holdsId
  cases h : s.patients j <;> simp

theorem holdsId_of_some {s : HospitalSystem} {j : Fin MAX_PATIENTS} {p : Patient}
    (h : s.patients j = some p) (id : String) : holdsId s id j ↔ p.id = id := by
  simp [holdsId, h]

theorem not_holdsId_of_none {s : HospitalSystem} {j : Fin MAX_PATIENTS}
    (h : s.patients j = none) (id : String) : ¬ holdsId s id j := by
  simp [holdsId, h]

theorem ScanResult.skip {s : HospitalSystem} {id : String} {i : Nat} {r : Int}
    (h : i < MAX_PATIENTS) (hno : ¬ holdsId s id ⟨i, h⟩)
    (hr : ScanResult s id (i + 1) r) : ScanResult s id i r := by
  have step : ∀ j : Fin MAX_PATIENTS, i ≤ j.val → i + 1 ≤ j.val ∨ ¬ holdsId s id j := by
    intro j hj
    by_cases hji : j.val = i
    · right
      have : j = ⟨i, h⟩ := Fin.ext hji
      rw [this]; exact hno
    · left; omega
  rcases hr with ⟨h1, h2⟩ | ⟨k, h1, h2, h3, h4⟩
  · exact Or.inl ⟨h1, fun j hj => (step j hj).elim (h2 j) (fun x => x)⟩
  · exact Or.inr ⟨k, h1, by omega, h3,
      fun j hj hjk => (step j hj).elim (fun hj1 => h4 j hj1 hjk) (fun x => x)⟩

theorem ScanResult.past_end (s : HospitalSystem) (id : String) {i : Nat}
    (h : MAX_PATIENTS ≤ i) : ScanResult s id i (-1) :=
  Or.inl ⟨rfl, fun j hj => absurd j.isLt (by omega)⟩

/-- The scan from index `i` with enough steps left gives a correct answer. -/
theorem find_patient_loop_spec (s : HospitalSystem) (id : String) :
    ∀ fuel i, MAX_PATIENTS ≤ i + fuel →
      ScanResult s id i (find_patient_loop s id fuel i) := by
  intro fuel
  induction fuel with
  | zero =>
    intro i hi
    exact ScanResult.past_end s id (by omega)
  | succ fuel ih =>
    intro i hi
    by_cases h : i < MAX_PATIENTS
    · cases hp : s.patients ⟨i, h⟩ with
      | none =>
        have heq : find_patient_loop s id (fuel + 1) i = find_patient_loop s id fuel (i + 1) := by
          simp [find_patient_loop, h, hp]
        rw [heq]
        exact ScanResult.skip h (not_holdsId_of_none hp id) (ih (i + 1) (by omega))
      | some p =>
        by_cases hid : p.id = id
        · right
          refine ⟨⟨i, h⟩, by simp [find_patient_loop, h, hp, hid], le_refl _,
            (holdsId_of_some hp id).2 hid, fun j hj hjk => ?_⟩
          simp at hjk; omega
        · have heq : find_patient_loop s id (fuel + 1) i
              = find_patient_loop s id fuel (i + 1) := by
            simp [find_patient_loop, h, hp, hid]
          rw [heq]
          exact ScanResult.skip h (fun hh => hid ((holdsId_of_some hp id).1 hh))
            (ih (i + 1) (by omega))
    · have heq : find_patient_loop s id (fuel + 1) i = -1 := by
        simp [find_patient_loop, h]
      rw [heq]
      exact ScanResult.past_end s id (by omega)

/-- The two results of `find_patient`. -/
theorem find_patient_cases (s : HospitalSystem) (id : String) :
    (find_patient s id = -1 ∧ ∀ j : Fin MAX_PATIENTS, ¬ holdsId s id j) ∨
    (∃ k : Fin MAX_PATIENTS, find_patient s id = (k.val : Int) ∧ holdsId s id k ∧
        ∀ j : Fin MAX_PATIENTS, j < k → ¬ holdsId s id j) := by
  rcases find_patient_loop_spec s id MAX_PATIENTS 0 (by omega) with ⟨h1, h2⟩ | ⟨k, h1, _, h3, h4⟩
  · exact Or.inl ⟨h1, fun j => h2 j (Nat.zero_le _)⟩
  · exact Or.inr ⟨k, h1, h3, fun j hjk => h4 j (Nat.zero_le _) hjk⟩

theorem find_patient_eq_neg_one {s : HospitalSystem} {id : String}
    (h : ∀ j : Fin MAX_PATIENTS, ¬ holdsId s id j) : find_patient s id = -1 := by
  rcases find_patient_cases s id with ⟨h1, _⟩ | ⟨k, _, h3, _⟩
  · exact h1
  · exact absurd h3 (h k)

theorem find_patient_eq_index {s : HospitalSystem} {id : String} {k : Fin MAX_PATIENTS}
    (hk : holdsId s id k) (hfirst : ∀ j : Fin MAX_PATIENTS, j < k → ¬ holdsId s id j) :
    find_patient s id = (k.val : Int) := by
  rcases find_patient_cases s id with ⟨_, h2⟩ | ⟨k', h1, h3, h4⟩
  · exact absurd hk (h2 k)
  · have : k' = k := by
      rcases lt_trichotomy k' k with hlt | heq | hgt
      · exact absurd h3 (hfirst k' hlt)
      · exact heq
      · exact absurd hk (h4 k hgt)
    rw [h1, this]

/-! ## Stores and slots -/

theorem HospitalSystem.eq_of {a b : HospitalSystem}
    (hp : a.patients = b.patients) (hc : a.count = b.count) : a = b := by
  cases a; cases b; simp_all

theorem cast_val_eq_iff (j k : Fin MAX_PATIENTS) : ((j.val : Int) = (k.val : Int)) ↔ j = k := by
  rw [Nat.cast_inj, Fin.val_inj]

/-! ## Initialisation -/

theorem init_loop_spec : ∀ fuel i (s : HospitalSystem), MAX_PATIENTS ≤ i + fuel →
    (init_loop fuel i s).count = s.count ∧
    ∀ j : Fin MAX_PATIENTS, (init_loop fuel i s).patients j
      = if i ≤ j.val then none else s.patients j := by
  intro fuel
  induction fuel with
  | zero =>
    intro i s hi
    refine ⟨rfl, fun j => ?_⟩
    have := j.isLt
    rw [if_neg (by omega)]; rfl
  | succ fuel ih =>
    intro i s hi
    by_cases h : i < MAX_PATIENTS
    · have heq : init_loop (fuel + 1) i s = init_loop fuel (i + 1)
          { s with patients := Function.update s.patients ⟨i, h⟩ none } := by
        simp [init_loop, h]
      rw [heq]
      obtain ⟨h1, h2⟩ := ih (i + 1)
        { s with patients := Function.update s.patients ⟨i, h⟩ none } (by omega)
      refine ⟨h1, fun j => ?_⟩
      rw [h2 j]
      by_cases hj : i + 1 ≤ j.val
      · rw [if_pos hj, if_pos (by omega)]
      · rw [if_neg hj]
        by_cases hji : j = ⟨i, h⟩
        · subst hji
          simp
        · have : ¬ i ≤ j.val := by
            intro hle
            apply hji
            apply Fin.ext
            show j.val = i
            omega
          rw [if_neg this]
          simp [Function.update, hji]
    · have heq : init_loop (fuel + 1) i s = s := by simp [init_loop, h]
      rw [heq]
      refine ⟨rfl, fun j => ?_⟩
      have := j.isLt
      rw [if_neg (by omega)]

/-- Whatever `*system` held, `init_hospital_system` leaves the empty store. -/
theorem init_hospital_system_eq (s0 : HospitalSystem) :
    init_hospital_system s0 = emptySystem := by
  obtain ⟨h1, h2⟩ := init_loop_spec MAX_PATIENTS 0 { s0 with count := 0 } (by omega)
  unfold init_hospital_system
  apply HospitalSystem.eq_of
  · funext j
    rw [h2 j, if_pos (Nat.zero_le _)]
    rfl
  · rw [h1]
    rfl

/-! ## Insertion -/

theorem add_patient_loop_spec (s : HospitalSystem) (p : Patient) :
    ∀ fuel i, MAX_PATIENTS ≤ i + fuel →
      (∃ k : Fin MAX_PATIENTS, FirstEmptyFrom s i k ∧
          add_patient_loop s p fuel i
            = ⟨⟨Function.update s.patients k (some p), s.count + 1⟩, true, none⟩) ∨
      ((∀ j : Fin MAX_PATIENTS, i ≤ j.val → s.patients j ≠ none) ∧
          add_patient_loop s p fuel i = ⟨s, false, none⟩) := by
  intro fuel
  induction fuel with
  | zero =>
    intro i hi
    right
    exact ⟨fun j hj => absurd j.isLt (by omega), rfl⟩
  | succ fuel ih =>
    intro i hi
    by_cases h : i < MAX_PATIENTS
    · cases hp : s.patients ⟨i, h⟩ with
      | none =>
        left
        refine ⟨⟨i, h⟩, ⟨le_refl _, hp, fun j hj hjk => ?_⟩, by simp [add_patient_loop, h, hp]⟩
        simp at hjk; omega
      | some q =>
        have heq : add_patient_loop s p (fuel + 1) i = add_patient_loop s p fuel (i + 1) := by
          simp [add_patient_loop, h, hp]
        rw [heq]
        have step : ∀ j : Fin MAX_PATIENTS, i ≤ j.val →
            i + 1 ≤ j.val ∨ s.patients j ≠ none := by
          intro j hj
          by_cases hji : j.val = i
          · right
            have : j = ⟨i, h⟩ := Fin.ext hji
            rw [this, hp]; simp
          · left; omega
        rcases ih (i + 1) (by omega) with ⟨k, ⟨h1, h2, h3⟩, h4⟩ | ⟨h1, h2⟩
        · exact Or.inl ⟨k, ⟨by omega, h2,
            fun j hj hjk => (step j hj).elim (fun hj1 => h3 j hj1 hjk) (fun x => x)⟩, h4⟩
        · exact Or.inr ⟨fun j hj => (step j hj).elim (h1 j) (fun x => x), h2⟩
    · right
      exact ⟨fun j hj => absurd j.isLt (by omega), by simp [add_patient_loop, h]⟩

/-- The three ways `add_patient` returns. -/
theorem add_patient_cases (s : HospitalSystem) (name id history : String) :
    ((MAX_PATIENTS : Int) ≤ s.count ∧
        add_patient s name id history = ⟨s, false, some Message.capacityReached⟩) ∨
    (s.count < (MAX_PATIENTS : Int) ∧ ∃ k : Fin MAX_PATIENTS, FirstEmptyFrom s 0 k ∧
        add_patient s name id history
          = ⟨⟨Function.update s.patients k (some ⟨name, id, history⟩), s.count + 1⟩,
              true, none⟩) ∨
    (s.count < (MAX_PATIENTS : Int) ∧ (∀ j : Fin MAX_PATIENTS, s.patients j ≠ none) ∧
        add_patient s name id history = ⟨s, false, none⟩) := by
  by_cases hc : (MAX_PATIENTS : Int) ≤ s.count
  · left
    exact ⟨hc, by simp [add_patient, hc]⟩
  · right
    have hlt : s.count < (MAX_PATIENTS : Int) := by omega
    have heq : add_patient s name id history
        = add_patient_loop s ⟨name, id, history⟩ MAX_PATIENTS 0 := by
      simp [add_patient, hc, safe_strdup]
    rw [heq]
    rcases add_patient_loop_spec s ⟨name, id, history⟩ MAX_PATIENTS 0 (by omega) with
      ⟨k, h1, h2⟩ | ⟨h1, h2⟩
    · exact Or.inl ⟨hlt, k, h1, h2⟩
    · exact Or.inr ⟨hlt, fun j => h1 j (Nat.zero_le _), h2⟩

/-! ## Removal and update -/

theorem remove_patient_not_found {s : HospitalSystem} {id : String}
    (h : find_patient s id = -1) :
    remove_patient s id = ⟨s, false, some Message.patientNotFound⟩ := by
  simp [remove_patient, h]

theorem wrapInt_of_range {x : Int} (hmin : INT_MIN ≤ x) (hmax : x ≤ INT_MAX) :
    wrapInt x = x := by
  unfold wrapInt
  unfold INT_MIN at hmin ⊢
  unfold INT_MAX at hmax
  omega

theorem remove_patient_found {s : HospitalSystem} {id : String} {k : Fin MAX_PATIENTS}
    (h : find_patient s id = (k.val : Int)) :
    remove_patient s id
      = ⟨⟨Function.update s.patients k none, wrapInt (s.count - 1)⟩, true, none⟩ := by
  have hne : ¬ ((k.val : Int) = -1) := by omega
  have hfun : (fun j : Fin MAX_PATIENTS =>
      if (j.val : Int) = (k.val : Int) then none else s.patients j)
      = Function.update s.patients k none := by
    funext j
    by_cases hjk : j = k
    · subst hjk; simp
    · rw [if_neg (fun hh => hjk ((cast_val_eq_iff j k).1 hh)), Function.update_noteq hjk]
  simp only [remove_patient, h, hne, if_false, hfun]

theorem update_medical_history_not_found {s : HospitalSystem} {id : String}
    (h : find_patient s id = -1) (realloc_ok : Bool) (new_history : String) :
    update_medical_history realloc_ok s id new_history
      = ⟨s, false, some Message.patientNotFound⟩ := by
  simp [update_medical_history, h]

theorem update_medical_history_too_long {s : HospitalSystem} {id : String}
    {k : Fin MAX_PATIENTS} (h : find_patient s id = (k.val : Int))
    (realloc_ok : Bool) {new_history : String}
    (hlen : MAX_HISTORY_LENGTH < strlen new_history) :
    update_medical_history realloc_ok s id new_history
      = ⟨s, false, some Message.historyTooLong⟩ := by
  have hne : ¬ ((k.val : Int) = -1) := by omega
  simp [update_medical_history, h, hne, hlen]

theorem update_medical_history_no_memory {s : HospitalSystem} {id : String}
    {k : Fin MAX_PATIENTS} (h : find_patient s id = (k.val : Int))
    {new_history : String} (hlen : strlen new_history ≤ MAX_HISTORY_LENGTH) :
    update_medical_history false s id new_history
      = ⟨s, false, some Message.reallocFailed⟩ := by
  have hne : ¬ ((k.val : Int) = -1) := by omega
  have hlen2 : ¬ (MAX_HISTORY_LENGTH < strlen new_history) := by omega
  simp [update_medical_history, h, hne, hlen2]

theorem update_medical_history_found {s : HospitalSystem} {id : String}
    {k : Fin MAX_PATIENTS} (h : find_patient s id = (k.val : Int))
    {new_history : String} (hlen : strlen new_history ≤ MAX_HISTORY_LENGTH) :
    update_medical_history true s id new_history
      = ⟨⟨Function.update s.patients k
            ((s.patients k).map fun p => { p with medical_history := new_history }),
          s.count⟩, true, none⟩ := by
  have hne : ¬ ((k.val : Int) = -1) := by omega
  have hlen2 : ¬ (MAX_HISTORY_LENGTH < strlen new_history) := by omega
  have hfun : (fun j : Fin MAX_PATIENTS =>
      if (j.val : Int) = (k.val : Int) then
        (s.patients j).map fun p => { p with medical_history := new_history }
      else s.patients j)
      = Function.update s.patients k
          ((s.patients k).map fun p => { p with medical_history := new_history }) := by
    funext j
    by_cases hjk : j = k
    · subst hjk; simp
    · rw [if_neg (fun hh => hjk ((cast_val_eq_iff j k).1 hh)), Function.update_noteq hjk]
  simp only [update_medical_history, h, hne, if_false, hlen2, gt_iff_lt, hfun]
  simp

/-! ## Counting occupied slots -/

theorem occupied_le (s : HospitalSystem) : occupied s ≤ MAX_PATIENTS := by
  have h := Finset.card_le_univ (Finset.univ.filter fun j => (s.patients j).isSome)
  rw [Fintype.card_fin] at h
  exact h

theorem occupied_emptySystem : occupied emptySystem = 0 := by
  simp [occupied, emptySystem]

theorem occupied_eq_zero_of_empty {s : HospitalSystem}
    (h : ∀ j : Fin MAX_PATIENTS, s.patients j = none) : occupied s = 0 := by
  simp [occupied, h]

theorem exists_empty_of_occupied_lt {s : HospitalSystem} (h : occupied s < MAX_PATIENTS) :
    ∃ j : Fin MAX_PATIENTS, s.patients j = none := by
  by_contra hno
  have hall : ∀ j : Fin MAX_PATIENTS, (s.patients j).isSome = true := by
    intro j
    cases hj : s.patients j with
    | none => exact absurd ⟨j, hj⟩ hno
    | some p => rfl
  have hset : (Finset.univ.filter fun j => (s.patients j).isSome) = Finset.univ :=
    Finset.filter_true_of_mem fun j _ => hall j
  have : occupied s = MAX_PATIENTS := by
    unfold occupied
    rw [hset, Finset.card_univ, Fintype.card_fin]
  omega

theorem occupied_fill {s : HospitalSystem} {k : Fin MAX_PATIENTS} (hk : s.patients k = none)
    (p : Patient) (c : Int) :
    occupied ⟨Function.update s.patients k (some p), c⟩ = occupied s + 1 := by
  have hset : (Finset.univ.filter fun j => (Function.update s.patients k (some p) j).isSome)
      = insert k (Finset.univ.filter fun j => (s.patients j).isSome) := by
    ext j
    by_cases hjk : j = k
    · subst hjk; simp
    · simp [Function.update_noteq hjk, hjk]
  have hnot : k ∉ Finset.univ.filter fun j => (s.patients j).isSome := by
    simp [hk]
  show (Finset.univ.filter fun j => (Function.update s.patients k (some p) j).isSome).card = _
  rw [hset, Finset.card_insert_of_not_mem hnot]
  rfl

theorem occupied_release {s : HospitalSystem} {k : Fin MAX_PATIENTS} {p : Patient}
    (hk : s.patients k = some p) (c : Int) :
    occupied ⟨Function.update s.patients k none, c⟩ + 1 = occupied s := by
  have hset : (Finset.univ.filter fun j => (Function.update s.patients k none j).isSome)
      = (Finset.univ.filter fun j => (s.patients j).isSome).erase k := by
    ext j
    by_cases hjk : j = k
    · subst hjk; simp
    · simp [Function.update_noteq hjk, hjk]
  have hmem : k ∈ Finset.univ.filter fun j => (s.patients j).isSome := by
    simp [hk]
  show (Finset.univ.filter fun j => (Function.update s.patients k none j).isSome).card + 1 = _
  rw [hset, Finset.card_erase_add_one hmem]
  rfl

theorem occupied_replace {s : HospitalSystem} {k : Fin MAX_PATIENTS} {p : Patient}
    (hk : s.patients k = some p) (q : Patient) (c : Int) :
    occupied ⟨Function.update s.patients k (some q), c⟩ = occupied s := by
  have hset : (Finset.univ.filter fun j => (Function.update s.patients k (some q) j).isSome)
      = (Finset.univ.filter fun j => (s.patients j).isSome) := by
    ext j
    by_cases hjk : j = k
    · subst hjk; simp [hk]
    · simp [Function.update_noteq hjk]
  show (Finset.univ.filter fun j => (Function.update s.patients k (some q) j).isSome).card = _
  rw [hset]
  rfl

/-! ## The counting invariant -/

theorem CountInv.add {s : HospitalSystem} (h : CountInv s) (name id history : String) :
    CountInv (add_patient s name id history).system := by
  rcases add_patient_cases s name id history with ⟨_, he⟩ | ⟨_, k, hk, he⟩ | ⟨_, _, he⟩
  · rw [he]; exact h
  · rw [he]
    show s.count + 1 = (occupied _ : Int)
    rw [occupied_fill hk.2.1, h]
    push_cast; rfl
  · rw [he]; exact h

theorem CountInv.remove {s : HospitalSystem} (h : CountInv s) (id : String) :
    CountInv (remove_patient s id).system := by
  rcases find_patient_cases s id with ⟨h1, _⟩ | ⟨k, h1, h2, _⟩
  · rw [remove_patient_not_found h1]; exact h
  · rw [remove_patient_found h1]
    obtain ⟨p, hp, _⟩ := (holdsId_iff s id k).1 h2
    have hrel := occupied_release hp (wrapInt (s.count - 1))
    have hc : s.count = (occupied s : Int) := h
    have hle := occupied_le s
    have hM : MAX_PATIENTS = 1000 := rfl
    have hw : wrapInt (s.count - 1) = s.count - 1 :=
      wrapInt_of_range (by unfold INT_MIN; omega) (by unfold INT_MAX; omega)
    have key : CountInv ⟨Function.update s.patients k none, wrapInt (s.count - 1)⟩ := by
      show wrapInt (s.count - 1)
        = ((occupied ⟨Function.update s.patients k none, wrapInt (s.count - 1)⟩ : Nat) : Int)
      omega
    exact key

theorem CountInv.update {s : HospitalSystem} (h : CountInv s) (realloc_ok : Bool)
    (id history : String) :
    CountInv (update_medical_history realloc_ok s id history).system := by
  rcases find_patient_cases s id with ⟨h1, _⟩ | ⟨k, h1, h2, _⟩
  · rw [update_medical_history_not_found h1]; exact h
  · by_cases hlen : strlen history ≤ MAX_HISTORY_LENGTH
    · cases realloc_ok with
      | false => rw [update_medical_history_no_memory h1 hlen]; exact h
      | true =>
        rw [update_medical_history_found h1 hlen]
        obtain ⟨p, hp, _⟩ := (holdsId_iff s id k).1 h2
        show s.count = (occupied _ : Int)
        rw [hp, Option.map_some', occupied_replace hp]
        exact h
    · rw [update_medical_history_too_long h1 realloc_ok (by omega)]; exact h

theorem CountInv.cleanup_loop : ∀ fuel i (s : HospitalSystem), CountInv s →
    CountInv (cleanup_loop fuel i s) := by
  intro fuel
  induction fuel with
  | zero => intro i s h; exact h
  | succ fuel ih =>
    intro i s h
    by_cases hi : i < MAX_PATIENTS
    · cases hp : s.patients ⟨i, hi⟩ with
      | none =>
        have heq : PatientRecords.cleanup_loop (fuel + 1) i s
            = PatientRecords.cleanup_loop fuel (i + 1) s := by
          simp [PatientRecords.cleanup_loop, hi, hp]
        rw [heq]; exact ih (i + 1) s h
      | some p =>
        have heq : PatientRecords.cleanup_loop (fuel + 1) i s
            = PatientRecords.cleanup_loop fuel (i + 1) (remove_patient s p.id).system := by
          simp [PatientRecords.cleanup_loop, hi, hp]
        rw [heq]; exact ih (i + 1) _ (h.remove p.id)
    · have heq : PatientRecords.cleanup_loop (fuel + 1) i s = s := by
        simp [PatientRecords.cleanup_loop, hi]
      rw [heq]; exact h

theorem Reachable.countInv {s : HospitalSystem} (h : Reachable s) : CountInv s := by
  induction h with
  | init s0 =>
    rw [init_hospital_system_eq]
    show (0 : Int) = (occupied emptySystem : Int)
    rw [occupied_emptySystem]; rfl
  | add name id history _ ih => exact ih.add name id history
  | update realloc_ok id history _ ih => exact ih.update realloc_ok id history
  | remove id _ ih => exact ih.remove id
  | cleanup _ ih => exact CountInv.cleanup_loop MAX_PATIENTS 0 _ ih

/-! ## Teardown -/

theorem cleanup_loop_empties : ∀ fuel i (s : HospitalSystem), MAX_PATIENTS ≤ i + fuel →
    (∀ j : Fin MAX_PATIENTS, j.val < i → s.patients j = none) →
    ∀ j : Fin MAX_PATIENTS, (cleanup_loop fuel i s).patients j = none := by
  intro fuel
  induction fuel with
  | zero =>
    intro i s hi hlow j
    exact hlow j (by have := j.isLt; omega)
  | succ fuel ih =>
    intro i s hi hlow
    by_cases h : i < MAX_PATIENTS
    · cases hp : s.patients ⟨i, h⟩ with
      | none =>
        have heq : cleanup_loop (fuel + 1) i s = cleanup_loop fuel (i + 1) s := by
          simp [cleanup_loop, h, hp]
        rw [heq]
        refine ih (i + 1) s (by omega) (fun j hj => ?_)
        by_cases hji : j.val = i
        · have : j = ⟨i, h⟩ := Fin.ext hji
          rw [this]; exact hp
        · exact hlow j (by omega)
      | some p =>
        have heq : cleanup_loop (fuel + 1) i s
            = cleanup_loop fuel (i + 1) (remove_patient s p.id).system := by
          simp [cleanup_loop, h, hp]
        have hfind : find_patient s p.id = (((⟨i, h⟩ : Fin MAX_PATIENTS)).val : Int) :=
          find_patient_eq_index ((holdsId_of_some hp p.id).2 rfl)
            (fun j hj => not_holdsId_of_none (hlow j hj) p.id)
        rw [heq, remove_patient_found hfind]
        refine ih (i + 1) _ (by omega) (fun j hj => ?_)
        show Function.update s.patients ⟨i, h⟩ none j = none
        by_cases hji : j = ⟨i, h⟩
        · rw [hji, Function.update_same]
        · rw [Function.update_noteq hji]
          refine hlow j ?_
          have : j.val ≠ i := fun hh => hji (Fin.ext hh)
          omega
    · intro j
      have heq : cleanup_loop (fuel + 1) i s = s := by simp [cleanup_loop, h]
      rw [heq]
      exact hlow j (by have := j.isLt; omega)

theorem cleanup_system_empties (s : HospitalSystem) (j : Fin MAX_PATIENTS) :
    (cleanup_system s).patients j = none :=
  cleanup_loop_empties MAX_PATIENTS 0 s (by omega) (fun j hj => absurd hj (Nat.not_lt_zero _)) j

/-! ## Facts about the example stores -/

theorem reachable_emptySystem : Reachable emptySystem := by
  have h := Reachable.init emptySystem
  rwa [init_hospital_system_eq] at h

theorem strlen_longHistory : strlen longHistory = MAX_HISTORY_LENGTH + 1 := by
  have go : ∀ n, String.utf8ByteSize.go (List.replicate n 'x') = n := by
    intro n
    induction n with
    | zero => rfl
    | succ n ih =>
      rw [List.replicate_succ, String.utf8ByteSize.go, ih]
      rfl
  exact go _

/-- In a store that satisfies the counting invariant and is below capacity,
`add_patient` fills the lowest-indexed empty slot. -/
theorem add_patient_of_countInv {s : HospitalSystem} (hinv : CountInv s)
    (hc : s.count < (MAX_PATIENTS : Int)) (name id history : String) :
    ∃ k : Fin MAX_PATIENTS, FirstEmptyFrom s 0 k ∧
      add_patient s name id history
        = ⟨⟨Function.update s.patients k (some ⟨name, id, history⟩), s.count + 1⟩,
            true, none⟩ := by
  rcases add_patient_cases s name id history with ⟨h1, _⟩ | ⟨_, k, hk, he⟩ | ⟨_, hfull, _⟩
  · omega
  · exact ⟨k, hk, he⟩
  · have hocc : occupied s < MAX_PATIENTS := by
      have hi : s.count = (occupied s : Int) := hinv
      omega
    obtain ⟨j, hj⟩ := exists_empty_of_occupied_lt hocc
    exact absurd hj (hfull j)

/-- An id that was never given to `add_patient` is held by no slot. -/
theorem ReachableAvoiding.not_held {x : String} {s : HospitalSystem}
    (h : ReachableAvoiding x s) : ∀ j : Fin MAX_PATIENTS, ¬ holdsId s x j := by
  induction h with
  | init s0 =>
    intro j
    rw [init_hospital_system_eq]
    exact not_holdsId_of_none rfl x
  | @add s name id history hne _ ih =>
    intro j
    rcases add_patient_cases s name id history with ⟨_, he⟩ | ⟨_, k, _, he⟩ | ⟨_, _, he⟩
    · rw [he]; exact ih j
    · rw [he]
      by_cases hjk : j = k
      · subst hjk
        have hs : (⟨Function.update s.patients j (some ⟨name, id, history⟩),
            s.count + 1⟩ : HospitalSystem).patients j = some ⟨name, id, history⟩ := by
          simp
        rw [holdsId_of_some hs]
        exact hne
      · intro hh
        apply ih j
        unfold holdsId at hh ⊢
        simpa [Function.update_noteq hjk] using hh
    · rw [he]; exact ih j
  | @update s realloc_ok id history _ ih =>
    intro j
    rcases find_patient_cases s id with ⟨h1, _⟩ | ⟨k, h1, _, _⟩
    · rw [update_medical_history_not_found h1]; exact ih j
    · by_cases hlen : strlen history ≤ MAX_HISTORY_LENGTH
      · cases realloc_ok with
        | false => rw [update_medical_history_no_memory h1 hlen]; exact ih j
        | true =>
          rw [update_medical_history_found h1 hlen]
          intro hh
          apply ih j
          unfold holdsId at hh ⊢
          by_cases hjk : j = k
          · subst hjk
            cases hp : s.patients j with
            | none => simp [hp] at hh
            | some p => simpa [hp] using hh
          · simpa [Function.update_noteq hjk] using hh
      · rw [update_medical_history_too_long h1 realloc_ok (by omega)]; exact ih j
  | @remove s id _ ih =>
    intro j
    rcases find_patient_cases s id with ⟨h1, _⟩ | ⟨k, h1, _, _⟩
    · rw [remove_patient_not_found h1]; exact ih j
    · rw [remove_patient_found h1]
      intro hh
      apply ih j
      unfold holdsId at hh ⊢
      by_cases hjk : j = k
      · subst hjk
        simp at hh
      · simpa [Function.update_noteq hjk] using hh
  | cleanup _ _ =>
    intro j
    exact not_holdsId_of_none (cleanup_system_empties _ j) x

theorem ReachableAvoiding.reachable {x : String} {s : HospitalSystem}
    (h : ReachableAvoiding x s) : Reachable s := by
  induction h with
  | init s0 => exact Reachable.init s0
  | add name id history _ _ ih => exact Reachable.add name id history ih
  | update realloc_ok id history _ ih => exact Reachable.update realloc_ok id history ih
  | remove id _ ih => exact Reachable.remove id ih
  | cleanup _ ih => exact Reachable.cleanup ih

theorem reachableAvoiding_emptySystem (x : String) : ReachableAvoiding x emptySystem := by
  have h := @ReachableAvoiding.init x emptySystem
  rwa [init_hospital_system_eq] at h

theorem storeAnn_patients :
    storeAnn.patients = Function.update (fun _ => none) slot0 (some ⟨"Ann", "P1", "flu"⟩) :=
  rfl

theorem storeAnn_holds_only_slot0 (id : String) (j : Fin MAX_PATIENTS)
    (h : holdsId storeAnn id j) : j = slot0 := by
  by_contra hne
  unfold holdsId at h
  rw [storeAnn_patients, Function.update_noteq hne] at h
  exact h

/-! ## Properties of the specification -/

/-- C1 (amended): in a reachable store below capacity, when no occupied slot
holds a record with the id being added, `add_patient` succeeds and the
`find_patient` that follows returns a slot whose record has exactly the given
name, id and medical history. -/
theorem add_then_find_fresh (s : HospitalSystem) (name id history : String)
    (hr : Reachable s) (hc : s.count < (MAX_PATIENTS : Int))
    (hfresh : ∀ j : Fin MAX_PATIENTS, ¬ holdsId s id j) :
    (add_patient s name id history).ret = true ∧
    ∃ k : Fin MAX_PATIENTS,
      find_patient (add_patient s name id history).system id = (k.val : Int) ∧
      (add_patient s name id history).system.patients k = some ⟨name, id, history⟩ := by
  obtain ⟨k, _, he⟩ := add_patient_of_countInv hr.countInv hc name id history
  rw [he]
  refine ⟨rfl, k, ?_, ?_⟩
  · apply find_patient_eq_index
    · have hs : (⟨Function.update s.patients k (some ⟨name, id, history⟩),
          s.count + 1⟩ : HospitalSystem).patients k = some ⟨name, id, history⟩ := by
        simp
      exact (holdsId_of_some hs id).2 rfl
    · intro j hjk hh
      apply hfresh j
      have hne : j ≠ k := ne_of_lt hjk
      unfold holdsId at hh ⊢
      simpa [Function.update_noteq hne] using hh
  · simp

/-- Witness of `add_then_find_fresh`: adding `"P1"` to the empty store. -/
theorem add_then_find_fresh_witness :
    (add_patient emptySystem "Ann" "P1" "flu").ret = true ∧
    ∃ k : Fin MAX_PATIENTS,
      find_patient (add_patient emptySystem "Ann" "P1" "flu").system "P1" = (k.val : Int) ∧
      (add_patient emptySystem "Ann" "P1" "flu").system.patients k
        = some ⟨"Ann", "P1", "flu"⟩ :=
  add_then_find_fresh emptySystem "Ann" "P1" "flu" reachable_emptySystem (by decide)
    (fun _ => not_holdsId_of_none rfl "P1")

/-- C1 fails as stated: `storeAnn` is reachable and below capacity, yet after
adding (`"Bob"`, `"P1"`, `"cold"`) the lookup of `"P1"` returns slot 0, whose
record is still (`"Ann"`, `"P1"`, `"flu"`). -/
theorem add_then_find_counterexample :
    Reachable storeAnn ∧ storeAnn.count < (MAX_PATIENTS : Int) ∧
    ¬ ∃ k : Fin MAX_PATIENTS,
      find_patient (add_patient storeAnn "Bob" "P1" "cold").system "P1" = (k.val : Int) ∧
      (add_patient storeAnn "Bob" "P1" "cold").system.patients k
        = some ⟨"Bob", "P1", "cold"⟩ := by
  refine ⟨Reachable.add _ _ _ reachable_emptySystem, by decide, ?_⟩
  rintro ⟨k, hk, hrec⟩
  have h0 : find_patient (add_patient storeAnn "Bob" "P1" "cold").system "P1"
      = (slot0.val : Int) := by decide
  have hk0 : k = slot0 := ((cast_val_eq_iff k slot0).1 (hk.symm.trans h0))
  subst hk0
  have hAnn : (add_patient storeAnn "Bob" "P1" "cold").system.patients slot0
      = some ⟨"Ann", "P1", "flu"⟩ := by decide
  rw [hAnn] at hrec
  exact absurd hrec (by decide)

/-- C2: in every reachable store `count` is the number of non-empty slots and
lies between 0 and `MAX_PATIENTS`, which is 1000. -/
theorem reachable_count_occupied (s : HospitalSystem) (hr : Reachable s) :
    s.count = (occupied s : Int) ∧ 0 ≤ s.count ∧ s.count ≤ (MAX_PATIENTS : Int) ∧
    MAX_PATIENTS = 1000 := by
  have hinv : s.count = (occupied s : Int) := hr.countInv
  have hle := occupied_le s
  refine ⟨hinv, by omega, by omega, rfl⟩

/-- Witness of `reachable_count_occupied`: the store with two records. -/
theorem reachable_count_occupied_witness :
    Reachable storeAnnBob ∧
    (storeAnnBob.count = (occupied storeAnnBob : Int) ∧ 0 ≤ storeAnnBob.count ∧
      storeAnnBob.count ≤ (MAX_PATIENTS : Int) ∧ MAX_PATIENTS = 1000) :=
  ⟨Reachable.add _ _ _ (Reachable.add _ _ _ reachable_emptySystem),
    reachable_count_occupied storeAnnBob
      (Reachable.add _ _ _ (Reachable.add _ _ _ reachable_emptySystem))⟩

/-- C3: with `count >= MAX_PATIENTS`, `add_patient` returns `false`, prints the
capacity line, and leaves the store (every slot and `count`) as it was. -/
theorem add_patient_at_capacity (s : HospitalSystem) (name id history : String)
    (hfull : (MAX_PATIENTS : Int) ≤ s.count) :
    (add_patient s name id history).ret = false ∧
    (add_patient s name id history).printed = some Message.capacityReached ∧
    (add_patient s name id history).system = s := by
  simp [add_patient, hfull]

/-- Witness of `add_patient_at_capacity`: a store with all slots occupied. -/
theorem add_patient_at_capacity_witness :
    (MAX_PATIENTS : Int) ≤ storeFull.count ∧
    ((add_patient storeFull "Bob" "P2" "cold").ret = false ∧
      (add_patient storeFull "Bob" "P2" "cold").printed = some Message.capacityReached ∧
      (add_patient storeFull "Bob" "P2" "cold").system = storeFull) :=
  ⟨by decide, add_patient_at_capacity storeFull "Bob" "P2" "cold" (by decide)⟩

/-- C4 (amended): when at most one occupied slot holds a record with the id,
`remove_patient` followed by `find_patient` of that id yields `-1`. -/
theorem remove_then_find_unique (s : HospitalSystem) (id : String)
    (huniq : ∀ j k : Fin MAX_PATIENTS, holdsId s id j → holdsId s id k → j = k) :
    find_patient (remove_patient s id).system id = -1 := by
  rcases find_patient_cases s id with ⟨h1, _⟩ | ⟨k, h1, h2, _⟩
  · rw [remove_patient_not_found h1]; exact h1
  · rw [remove_patient_found h1]
    apply find_patient_eq_neg_one
    intro j hh
    by_cases hjk : j = k
    · subst hjk
      unfold holdsId at hh
      simp at hh
    · apply hjk
      apply huniq j k _ h2
      unfold holdsId at hh ⊢
      simpa [Function.update_noteq hjk] using hh

/-- Witness of `remove_then_find_unique`: `storeAnn` holds `"P1"` in slot 0
only. -/
theorem remove_then_find_unique_witness :
    (∀ j k : Fin MAX_PATIENTS, holdsId storeAnn "P1" j → holdsId storeAnn "P1" k → j = k) ∧
    find_patient (remove_patient storeAnn "P1").system "P1" = -1 :=
  ⟨fun j k hj hk => (storeAnn_holds_only_slot0 "P1" j hj).trans
      (storeAnn_holds_only_slot0 "P1" k hk).symm,
    remove_then_find_unique storeAnn "P1" fun j k hj hk =>
      (storeAnn_holds_only_slot0 "P1" j hj).trans (storeAnn_holds_only_slot0 "P1" k hk).symm⟩

/-- C4 fails as stated: `storeAnnBob` is reachable and holds `"P1"` in slots 0
and 1; after `remove_patient` of `"P1"` the lookup returns slot 1, not `-1`. -/
theorem remove_then_find_counterexample :
    Reachable storeAnnBob ∧
    (remove_patient storeAnnBob "P1").ret = true ∧
    find_patient (remove_patient storeAnnBob "P1").system "P1" = 1 ∧
    find_patient (remove_patient storeAnnBob "P1").system "P1" ≠ -1 :=
  ⟨Reachable.add _ _ _ (Reachable.add _ _ _ reachable_emptySystem),
    by decide, by decide, by decide⟩

/-- C5 (amended): when `find_patient` returns slot `i` and `count` is an `int`
above `INT_MIN`, as in every reachable store, `remove_patient` returns `true`,
empties slot `i`, decreases `count` by one and leaves every other slot as it
was. -/
theorem remove_patient_frame (s : HospitalSystem) (id : String) (i : Fin MAX_PATIENTS)
    (hfind : find_patient s id = (i.val : Int))
    (hmin : INT_MIN < s.count) (hmax : s.count ≤ INT_MAX) :
    (remove_patient s id).ret = true ∧
    (remove_patient s id).system.patients i = none ∧
    (remove_patient s id).system.count = s.count - 1 ∧
    ∀ j : Fin MAX_PATIENTS, j ≠ i →
      (remove_patient s id).system.patients j = s.patients j := by
  have hw : wrapInt (s.count - 1) = s.count - 1 :=
    wrapInt_of_range (by omega) (by omega)
  rw [remove_patient_found hfind]
  refine ⟨rfl, by simp, hw, fun j hj => ?_⟩
  show Function.update s.patients i none j = s.patients j
  rw [Function.update_noteq hj]

/-- Witness of `remove_patient_frame`: removing `"P1"` from `storeAnnBob`,
whose `count` is 2. -/
theorem remove_patient_frame_witness :
    find_patient storeAnnBob "P1" = (slot0.val : Int) ∧
    INT_MIN < storeAnnBob.count ∧ storeAnnBob.count ≤ INT_MAX ∧
    ((remove_patient storeAnnBob "P1").ret = true ∧
      (remove_patient storeAnnBob "P1").system.patients slot0 = none ∧
      (remove_patient storeAnnBob "P1").system.count = storeAnnBob.count - 1 ∧
      ∀ j : Fin MAX_PATIENTS, j ≠ slot0 →
        (remove_patient storeAnnBob "P1").system.patients j = storeAnnBob.patients j) :=
  ⟨by decide, by decide, by decide,
    remove_patient_frame storeAnnBob "P1" slot0 (by decide) (by decide) (by decide)⟩

/-- C5 fails as stated: in `storeIntMin`, whose `count` is `INT_MIN`,
`find_patient` returns slot 0 for `"P1"` and `remove_patient` returns `true`,
but `count--` wraps to `INT_MAX`, which is not `count - 1`. -/
theorem remove_patient_frame_counterexample :
    find_patient storeIntMin "P1" = (slot0.val : Int) ∧
    (remove_patient storeIntMin "P1").ret = true ∧
    (remove_patient storeIntMin "P1").system.count = 2147483647 ∧
    (remove_patient storeIntMin "P1").system.count ≠ storeIntMin.count - 1 :=
  ⟨by decide, by decide, by decide, by decide⟩

/-- C6 (amended): when `find_patient` returns a slot and the new history is
longer than `MAX_HISTORY_LENGTH` (4096) bytes, `update_medical_history` returns
`false`, prints the too-long line and leaves the whole store, hence every
medical history, as it was. -/
theorem update_too_long_found (realloc_ok : Bool) (s : HospitalSystem)
    (id new_history : String) (i : Fin MAX_PATIENTS)
    (hfind : find_patient s id = (i.val : Int))
    (hlen : MAX_HISTORY_LENGTH < strlen new_history) :
    (update_medical_history realloc_ok s id new_history).ret = false ∧
    (update_medical_history realloc_ok s id new_history).printed
      = some Message.historyTooLong ∧
    (update_medical_history realloc_ok s id new_history).system = s ∧
    MAX_HISTORY_LENGTH = 4096 := by
  rw [update_medical_history_too_long hfind realloc_ok hlen]
  exact ⟨rfl, rfl, rfl, rfl⟩

/-- Witness of `update_too_long_found`: `"P1"` in `storeAnn` with a history of
4097 bytes. -/
theorem update_too_long_found_witness :
    find_patient storeAnn "P1" = (slot0.val : Int) ∧
    MAX_HISTORY_LENGTH < strlen longHistory ∧
    ((update_medical_history true storeAnn "P1" longHistory).ret = false ∧
      (update_medical_history true storeAnn "P1" longHistory).printed
        = some Message.historyTooLong ∧
      (update_medical_history true storeAnn "P1" longHistory).system = storeAnn ∧
      MAX_HISTORY_LENGTH = 4096) :=
  ⟨by decide, by rw [strlen_longHistory]; exact Nat.lt_succ_self _,
    update_too_long_found true storeAnn "P1" longHistory slot0 (by decide)
      (by rw [strlen_longHistory]; exact Nat.lt_succ_self _)⟩

/-- C6 fails as stated: for the id `"P2"`, which `storeAnn` does not hold, and
a history of 4097 bytes, the failure of `update_medical_history` is the
not-found one, not the too-long one. -/
theorem update_too_long_counterexample :
    MAX_HISTORY_LENGTH < strlen longHistory ∧
    (update_medical_history true storeAnn "P2" longHistory).ret = false ∧
    (update_medical_history true storeAnn "P2" longHistory).printed
      = some Message.patientNotFound ∧
    (update_medical_history true storeAnn "P2" longHistory).printed
      ≠ some Message.historyTooLong := by
  have hnf : find_patient storeAnn "P2" = -1 :=
    find_patient_eq_neg_one fun j hj => by
      have h0 := storeAnn_holds_only_slot0 "P2" j hj
      subst h0
      exact absurd hj (by decide)
  rw [update_medical_history_not_found hnf]
  exact ⟨by rw [strlen_longHistory]; exact Nat.lt_succ_self _, rfl, rfl, by decide⟩

/-- C7: when no occupied slot holds a record with the id, `find_patient`
returns `-1`, and `update_medical_history` (for every new history) and
`remove_patient` return `false`, print the not-found line and leave the store
as it was. -/
theorem absent_id_not_found (s : HospitalSystem) (id : String)
    (habsent : ∀ j : Fin MAX_PATIENTS, ¬ holdsId s id j) :
    find_patient s id = -1 ∧
    (∀ (realloc_ok : Bool) (h : String),
      (update_medical_history realloc_ok s id h).ret = false ∧
      (update_medical_history realloc_ok s id h).printed = some Message.patientNotFound ∧
      (update_medical_history realloc_ok s id h).system = s) ∧
    (remove_patient s id).ret = false ∧
    (remove_patient s id).printed = some Message.patientNotFound ∧
    (remove_patient s id).system = s := by
  have hnf := find_patient_eq_neg_one habsent
  refine ⟨hnf, fun realloc_ok h => ?_, ?_⟩
  · rw [update_medical_history_not_found hnf]
    exact ⟨rfl, rfl, rfl⟩
  · rw [remove_patient_not_found hnf]
    exact ⟨rfl, rfl, rfl⟩

/-- Witness of `absent_id_not_found`: the id `"P2"` was never inserted into
`storeAnn`. -/
theorem absent_id_not_found_witness :
    find_patient storeAnn "P2" = -1 ∧
    (∀ (realloc_ok : Bool) (h : String),
      (update_medical_history realloc_ok storeAnn "P2" h).ret = false ∧
      (update_medical_history realloc_ok storeAnn "P2" h).printed
        = some Message.patientNotFound ∧
      (update_medical_history realloc_ok storeAnn "P2" h).system = storeAnn) ∧
    (remove_patient storeAnn "P2").ret = false ∧
    (remove_patient storeAnn "P2").printed = some Message.patientNotFound ∧
    (remove_patient storeAnn "P2").system = storeAnn :=
  absent_id_not_found storeAnn "P2"
    (ReachableAvoiding.add "Ann" "P1" "flu" (by decide)
      (reachableAvoiding_emptySystem "P2")).not_held

/-- C8 (amended): when `find_patient` returns slot `i`, the new history has at
most 4096 bytes and `realloc` succeeds, `update_medical_history` returns
`true`, the record in slot `i` has the new history with its name and id
unchanged, every other slot is unchanged and `count` is unchanged. -/
theorem update_frame (s : HospitalSystem) (id h : String) (i : Fin MAX_PATIENTS)
    (hfind : find_patient s id = (i.val : Int))
    (hlen : strlen h ≤ MAX_HISTORY_LENGTH) :
    (update_medical_history true s id h).ret = true ∧
    (∃ p : Patient, s.patients i = some p ∧
      (update_medical_history true s id h).system.patients i = some ⟨p.name, p.id, h⟩) ∧
    (∀ j : Fin MAX_PATIENTS, j ≠ i →
      (update_medical_history true s id h).system.patients j = s.patients j) ∧
    (update_medical_history true s id h).system.count = s.count ∧
    MAX_HISTORY_LENGTH = 4096 := by
  have hheld : holdsId s id i := by
    rcases find_patient_cases s id with ⟨h1, _⟩ | ⟨k, h1, h2, _⟩
    · rw [h1] at hfind; omega
    · have : k = i := (cast_val_eq_iff k i).1 (h1.symm.trans hfind)
      rw [← this]; exact h2
  obtain ⟨p, hp, _⟩ := (holdsId_iff s id i).1 hheld
  rw [update_medical_history_found hfind hlen]
  refine ⟨rfl, ⟨p, hp, by simp [hp]⟩, fun j hj => ?_, rfl, rfl⟩
  show Function.update s.patients i _ j = s.patients j
  rw [Function.update_noteq hj]

/-- Witness of `update_frame`: a new history for `"P1"` in `storeAnnBob`. -/
theorem update_frame_witness :
    find_patient storeAnnBob "P1" = (slot0.val : Int) ∧
    strlen "flu, resolved" ≤ MAX_HISTORY_LENGTH ∧
    ((update_medical_history true storeAnnBob "P1" "flu, resolved").ret = true ∧
      (∃ p : Patient, storeAnnBob.patients slot0 = some p ∧
        (update_medical_history true storeAnnBob "P1" "flu, resolved").system.patients slot0
          = some ⟨p.name, p.id, "flu, resolved"⟩) ∧
      (∀ j : Fin MAX_PATIENTS, j ≠ slot0 →
        (update_medical_history true storeAnnBob "P1" "flu, resolved").system.patients j
          = storeAnnBob.patients j) ∧
      (update_medical_history true storeAnnBob "P1" "flu, resolved").system.count
        = storeAnnBob.count ∧
      MAX_HISTORY_LENGTH = 4096) :=
  ⟨by decide, by decide,
    update_frame storeAnnBob "P1" "flu, resolved" slot0 (by decide) (by decide)⟩

/-- C8 fails as stated: `find_patient` returns slot 0 for `"P1"` in `storeAnn`
and the new history has 13 bytes, yet when `realloc` returns `NULL` the update
returns `false`, prints the memory line and leaves the store as it was. -/
theorem update_frame_counterexample :
    find_patient storeAnn "P1" = (slot0.val : Int) ∧
    strlen "flu, resolved" ≤ MAX_HISTORY_LENGTH ∧
    (update_medical_history false storeAnn "P1" "flu, resolved").ret = false ∧
    (update_medical_history false storeAnn "P1" "flu, resolved").printed
      = some Message.reallocFailed ∧
    (update_medical_history false storeAnn "P1" "flu, resolved").system.patients slot0
      = some ⟨"Ann", "P1", "flu"⟩ :=
  ⟨by decide, by decide, by decide, by decide, by decide⟩

/-- C9: `find_patient` returns the index `i` exactly when slot `i` is occupied
by a record with that id and no lower slot is; it returns `-1` exactly when no
occupied slot holds a record with that id; and it returns nothing else. -/
theorem find_patient_spec (s : HospitalSystem) (id : String) :
    (∀ i : Fin MAX_PATIENTS, find_patient s id = (i.val : Int) ↔
      (holdsId s id i ∧ ∀ j : Fin MAX_PATIENTS, j < i → ¬ holdsId s id j)) ∧
    (find_patient s id = -1 ↔ ∀ j : Fin MAX_PATIENTS, ¬ holdsId s id j) ∧
    (find_patient s id = -1 ∨ ∃ i : Fin MAX_PATIENTS, find_patient s id = (i.val : Int)) := by
  refine ⟨fun i => ⟨fun hi => ?_, fun hi => find_patient_eq_index hi.1 hi.2⟩,
    ⟨fun hm => ?_, find_patient_eq_neg_one⟩, ?_⟩
  · rcases find_patient_cases s id with ⟨h1, _⟩ | ⟨k, h1, h2, h3⟩
    · rw [h1] at hi; omega
    · have : k = i := (cast_val_eq_iff k i).1 (h1.symm.trans hi)
      rw [← this]; exact ⟨h2, h3⟩
  · rcases find_patient_cases s id with ⟨_, h2⟩ | ⟨k, h1, _, _⟩
    · exact h2
    · rw [h1] at hm; omega
  · rcases find_patient_cases s id with ⟨h1, _⟩ | ⟨k, h1, _, _⟩
    · exact Or.inl h1
    · exact Or.inr ⟨k, h1⟩

/-- C10: from every reachable store, `cleanup_system` leaves every slot empty
and `count` equal to 0. -/
theorem cleanup_system_clears (s : HospitalSystem) (hr : Reachable s) :
    (∀ j : Fin MAX_PATIENTS, (cleanup_system s).patients j = none) ∧
    (cleanup_system s).count = 0 := by
  have hempty := cleanup_system_empties s
  have hinv : (cleanup_system s).count = (occupied (cleanup_system s) : Int) :=
    (Reachable.cleanup hr).countInv
  refine ⟨hempty, ?_⟩
  rw [hinv, occupied_eq_zero_of_empty hempty]
  rfl

/-- Witness of `cleanup_system_clears`: `storeAnnBob` holds two records with
the same id. -/
theorem cleanup_system_clears_witness :
    Reachable storeAnnBob ∧
    ((∀ j : Fin MAX_PATIENTS, (cleanup_system storeAnnBob).patients j = none) ∧
      (cleanup_system storeAnnBob).count = 0) :=
  ⟨Reachable.add _ _ _ (Reachable.add _ _ _ reachable_emptySystem),
    cleanup_system_clears storeAnnBob
      (Reachable.add _ _ _ (Reachable.add _ _ _ reachable_emptySystem))⟩


/-! ## Further lemmas on the operations -/

theorem cleanup_system_eq_emptySystem {s : HospitalSystem} (h : CountInv s) :
    cleanup_system s = emptySystem := by
  have hempty := cleanup_system_empties s
  have hinv : (cleanup_system s).count = (occupied (cleanup_system s) : Int) :=
    CountInv.cleanup_loop MAX_PATIENTS 0 s h
  apply HospitalSystem.eq_of
  · funext j
    rw [hempty j]
    rfl
  · rw [hinv, occupied_eq_zero_of_empty hempty]
    rfl

theorem holdsId_of_find {s : HospitalSystem} {id : String} {k : Fin MAX_PATIENTS}
    (h : find_patient s id = (k.val : Int)) :
    holdsId s id k ∧ ∀ j : Fin MAX_PATIENTS, j < k → ¬ holdsId s id j := by
  rcases find_patient_cases s id with ⟨h1, _⟩ | ⟨k', h1, h2, h3⟩
  · rw [h1] at h; omega
  · have : k' = k := (cast_val_eq_iff k' k).1 (h1.symm.trans h)
    rw [← this]; exact ⟨h2, h3⟩

theorem update_medical_history_other_slots {s : HospitalSystem} {id : String}
    {k : Fin MAX_PATIENTS} (h : find_patient s id = (k.val : Int))
    (realloc_ok : Bool) (new_history : String) (j : Fin MAX_PATIENTS) (hj : j ≠ k) :
    (update_medical_history realloc_ok s id new_history).system.patients j
      = s.patients j := by
  by_cases hlen : strlen new_history ≤ MAX_HISTORY_LENGTH
  · cases realloc_ok with
    | false => rw [update_medical_history_no_memory h hlen]
    | true =>
      rw [update_medical_history_found h hlen]
      show Function.update s.patients k _ j = s.patients j
      rw [Function.update_noteq hj]
  · rw [update_medical_history_too_long h realloc_ok (by omega)]

theorem update_medical_history_ret_false_system (realloc_ok : Bool) (s : HospitalSystem)
    (id new_history : String)
    (h : (update_medical_history realloc_ok s id new_history).ret = false) :
    (update_medical_history realloc_ok s id new_history).system = s := by
  rcases find_patient_cases s id with ⟨h1, _⟩ | ⟨k, h1, _, _⟩
  · rw [update_medical_history_not_found h1]
  · by_cases hlen : strlen new_history ≤ MAX_HISTORY_LENGTH
    · cases realloc_ok with
      | false => rw [update_medical_history_no_memory h1 hlen]
      | true =>
        rw [update_medical_history_found h1 hlen] at h
        exact absurd h (by simp)
    · rw [update_medical_history_too_long h1 realloc_ok (by omega)]

theorem update_medical_history_ret_true {realloc_ok : Bool} {s : HospitalSystem}
    {id new_history : String}
    (h : (update_medical_history realloc_ok s id new_history).ret = true) :
    realloc_ok = true ∧ strlen new_history ≤ MAX_HISTORY_LENGTH ∧
    ∃ k : Fin MAX_PATIENTS, find_patient s id = (k.val : Int) := by
  rcases find_patient_cases s id with ⟨h1, _⟩ | ⟨k, h1, _, _⟩
  · rw [update_medical_history_not_found h1] at h
    exact absurd h (by simp)
  · by_cases hlen : strlen new_history ≤ MAX_HISTORY_LENGTH
    · cases realloc_ok with
      | false =>
        rw [update_medical_history_no_memory h1 hlen] at h
        exact absurd h (by simp)
      | true => exact ⟨rfl, hlen, k, h1⟩
    · rw [update_medical_history_too_long h1 realloc_ok (by omega)] at h
      exact absurd h (by simp)

/-- The answer of `find_patient` depends only on which slots hold the id. -/
theorem find_patient_congr {s t : HospitalSystem} {id : String}
    (h : ∀ j : Fin MAX_PATIENTS, holdsId t id j ↔ holdsId s id j) :
    find_patient t id = find_patient s id := by
  rcases find_patient_cases s id with ⟨h1, h2⟩ | ⟨k, h1, h2, h3⟩
  · rw [h1]
    exact find_patient_eq_neg_one fun j hj => h2 j ((h j).1 hj)
  · rw [h1]
    exact find_patient_eq_index ((h k).2 h2) fun j hjk hj => h3 j hjk ((h j).1 hj)

theorem holdsId_update_of_ne {s : HospitalSystem} {k j : Fin MAX_PATIENTS} (hjk : j ≠ k)
    (v : Option Patient) (c : Int) (id : String) :
    holdsId ⟨Function.update s.patients k v, c⟩ id j ↔ holdsId s id j := by
  unfold holdsId
  simp [Function.update_noteq hjk]

theorem holdsId_update_same {s : HospitalSystem} {k : Fin MAX_PATIENTS}
    (p : Patient) (c : Int) (id : String) :
    holdsId ⟨Function.update s.patients k (some p), c⟩ id k ↔ p.id = id := by
  unfold holdsId
  simp

theorem not_holdsId_update_none {s : HospitalSystem} {k : Fin MAX_PATIENTS}
    (c : Int) (id : String) :
    ¬ holdsId ⟨Function.update s.patients k none, c⟩ id k := by
  unfold holdsId
  simp

/-- C11: `cleanup_system` is idempotent on reachable stores: a second call
gives the same store as the first, and `count` is 0 after each call. -/
theorem cleanup_system_idempotent (s : HospitalSystem) (hr : Reachable s) :
    cleanup_system (cleanup_system s) = cleanup_system s ∧
    (cleanup_system s).count = 0 ∧
    (cleanup_system (cleanup_system s)).count = 0 := by
  have h1 : cleanup_system s = emptySystem := cleanup_system_eq_emptySystem hr.countInv
  have h2 : cleanup_system (cleanup_system s) = emptySystem :=
    cleanup_system_eq_emptySystem (Reachable.cleanup hr).countInv
  rw [h2, h1]
  exact ⟨rfl, rfl, rfl⟩

/-- Witness of `cleanup_system_idempotent`: the store with two records. -/
theorem cleanup_system_idempotent_witness :
    Reachable storeAnnBob ∧
    (cleanup_system (cleanup_system storeAnnBob) = cleanup_system storeAnnBob ∧
      (cleanup_system storeAnnBob).count = 0 ∧
      (cleanup_system (cleanup_system storeAnnBob)).count = 0) :=
  ⟨Reachable.add _ _ _ (Reachable.add _ _ _ reachable_emptySystem),
    cleanup_system_idempotent storeAnnBob
      (Reachable.add _ _ _ (Reachable.add _ _ _ reachable_emptySystem))⟩

/-- C12: whenever `add_patient`, `update_medical_history` or `remove_patient`
returns `false`, the store after the call (every slot and `count`) is the
store before the call. -/
theorem failure_leaves_store (s : HospitalSystem) (name id history : String)
    (realloc_ok : Bool) (uid new_history rid : String) :
    ((add_patient s name id history).ret = false →
      (add_patient s name id history).system = s) ∧
    ((update_medical_history realloc_ok s uid new_history).ret = false →
      (update_medical_history realloc_ok s uid new_history).system = s) ∧
    ((remove_patient s rid).ret = false → (remove_patient s rid).system = s) := by
  refine ⟨fun h => ?_, update_medical_history_ret_false_system realloc_ok s uid new_history,
    fun h => ?_⟩
  · rcases add_patient_cases s name id history with ⟨_, he⟩ | ⟨_, k, _, he⟩ | ⟨_, _, he⟩
    · rw [he]
    · rw [he] at h
      exact absurd h (by simp)
    · rw [he]
  · rcases find_patient_cases s rid with ⟨h1, _⟩ | ⟨k, h1, _, _⟩
    · rw [remove_patient_not_found h1]
    · rw [remove_patient_found h1] at h
      exact absurd h (by simp)

/-- Witness of `failure_leaves_store`: a failing call of each operation, on the
full store, with a failed `realloc`, and with an id that is not held. -/
theorem failure_leaves_store_witness :
    (add_patient storeFull "Bob" "P2" "cold").system = storeFull ∧
    (update_medical_history false storeAnn "P1" "flu, resolved").system = storeAnn ∧
    (remove_patient storeAnn "P2").system = storeAnn :=
  ⟨(failure_leaves_store storeFull "Bob" "P2" "cold" false "P1" "flu" "P1").1 (by decide),
    (failure_leaves_store storeAnn "Bob" "P2" "cold" false "P1" "flu, resolved" "P2").2.1
      (by decide),
    (failure_leaves_store storeAnn "Bob" "P2" "cold" false "P1" "flu" "P2").2.2
      (by rw [remove_patient_not_found (find_patient_eq_neg_one fun j hj => by
        have h0 := storeAnn_holds_only_slot0 "P2" j hj
        subst h0
        exact absurd hj (by decide))])⟩

/-- C14: after a call of `update_medical_history` that returns `true`, the
record in the slot `find_patient` gave holds the new history, which has at
most `MAX_HISTORY_LENGTH` (4096) bytes. -/
theorem update_success_history_bound (realloc_ok : Bool) (s : HospitalSystem)
    (id h : String) (hsucc : (update_medical_history realloc_ok s id h).ret = true) :
    ∃ (i : Fin MAX_PATIENTS) (p : Patient),
      find_patient s id = (i.val : Int) ∧
      (update_medical_history realloc_ok s id h).system.patients i = some p ∧
      p.medical_history = h ∧
      strlen p.medical_history ≤ MAX_HISTORY_LENGTH ∧ MAX_HISTORY_LENGTH = 4096 := by
  obtain ⟨hb, hlen, k, hk⟩ := update_medical_history_ret_true hsucc
  subst hb
  obtain ⟨p, hp, _⟩ := (holdsId_iff s id k).1 (holdsId_of_find hk).1
  refine ⟨k, ⟨p.name, p.id, h⟩, hk, ?_, rfl, hlen, rfl⟩
  rw [update_medical_history_found hk hlen]
  simp [hp]

/-- Witness of `update_success_history_bound`: a new history for `"P1"`. -/
theorem update_success_history_bound_witness :
    (update_medical_history true storeAnn "P1" "flu, resolved").ret = true ∧
    ∃ (i : Fin MAX_PATIENTS) (p : Patient),
      find_patient storeAnn "P1" = (i.val : Int) ∧
      (update_medical_history true storeAnn "P1" "flu, resolved").system.patients i
        = some p ∧
      p.medical_history = "flu, resolved" ∧
      strlen p.medical_history ≤ MAX_HISTORY_LENGTH ∧ MAX_HISTORY_LENGTH = 4096 :=
  ⟨by decide,
    update_success_history_bound true storeAnn "P1" "flu, resolved" (by decide)⟩

/-- C15: in a reachable store a free slot exists whenever
`count < MAX_PATIENTS`, so `add_patient` then returns `true`; it returns
`false` exactly when `count >= MAX_PATIENTS`, and the fall-through after the
slot search, which returns `false` without printing, is never taken. -/
theorem add_patient_fails_iff_full (s : HospitalSystem) (name id history : String)
    (hr : Reachable s) :
    (s.count < (MAX_PATIENTS : Int) →
      (∃ j : Fin MAX_PATIENTS, s.patients j = none) ∧
      (add_patient s name id history).ret = true) ∧
    ((add_patient s name id history).ret = false ↔ (MAX_PATIENTS : Int) ≤ s.count) ∧
    ¬ ((add_patient s name id history).ret = false ∧
        (add_patient s name id history).printed = none) := by
  by_cases hc : s.count < (MAX_PATIENTS : Int)
  · obtain ⟨k, hk, he⟩ := add_patient_of_countInv hr.countInv hc name id history
    rw [he]
    refine ⟨fun _ => ⟨⟨k, hk.2.1⟩, rfl⟩, ⟨fun h => absurd h (by simp), fun h => ?_⟩, ?_⟩
    · omega
    · simp
  · have hfull : (MAX_PATIENTS : Int) ≤ s.count := by omega
    have he : add_patient s name id history = ⟨s, false, some Message.capacityReached⟩ := by
      simp [add_patient, hfull]
    rw [he]
    refine ⟨fun h => absurd h hc, ⟨fun _ => hfull, fun _ => rfl⟩, ?_⟩
    simp

/-- Witness of `add_patient_fails_iff_full`: the store with one record. -/
theorem add_patient_fails_iff_full_witness :
    Reachable storeAnn ∧
    ((storeAnn.count < (MAX_PATIENTS : Int) →
      (∃ j : Fin MAX_PATIENTS, storeAnn.patients j = none) ∧
      (add_patient storeAnn "Bob" "P2" "cold").ret = true) ∧
    ((add_patient storeAnn "Bob" "P2" "cold").ret = false ↔
      (MAX_PATIENTS : Int) ≤ storeAnn.count) ∧
    ¬ ((add_patient storeAnn "Bob" "P2" "cold").ret = false ∧
        (add_patient storeAnn "Bob" "P2" "cold").printed = none)) :=
  ⟨Reachable.add _ _ _ reachable_emptySystem,
    add_patient_fails_iff_full storeAnn "Bob" "P2" "cold"
      (Reachable.add _ _ _ reachable_emptySystem)⟩

theorem runAddAnn_eq (s0 : HospitalSystem) :
    runAddAnn s0 = add_patient emptySystem "Ann" "P1" "flu" := by
  unfold runAddAnn
  rw [init_hospital_system_eq]

theorem runAddBob_eq (s0 : HospitalSystem) :
    runAddBob s0
      = add_patient (add_patient emptySystem "Ann" "P1" "flu").system "Bob" "P2" "cold" := by
  unfold runAddBob
  rw [runAddAnn_eq]

theorem runUpdate_eq (realloc_ok : Bool) (s0 : HospitalSystem) :
    runUpdate realloc_ok s0 = update_medical_history realloc_ok
      (add_patient (add_patient emptySystem "Ann" "P1" "flu").system "Bob" "P2" "cold").system
      "P1" "flu, resolved" := by
  unfold runUpdate
  rw [runAddBob_eq]

theorem runRemove_eq (realloc_ok : Bool) (s0 : HospitalSystem) :
    runRemove realloc_ok s0 = remove_patient (update_medical_history realloc_ok
      (add_patient (add_patient emptySystem "Ann" "P1" "flu").system "Bob" "P2" "cold").system
      "P1" "flu, resolved").system "P2" := by
  unfold runRemove
  rw [runUpdate_eq]

/-- C13 (amended): from the store `init_hospital_system` leaves, adding
(`"Ann"`, `"P1"`, `"flu"`) and (`"Bob"`, `"P2"`, `"cold"`) returns `true`
twice; when the `realloc` of the update does not fail, the update of `"P1"` to
`"flu, resolved"` returns `true` and `find_patient` of `"P1"` gives a slot
whose record has that history; removing `"P2"` returns `true`; and
`display_patients` then prints exactly one record, whose id is `"P1"`. -/
theorem end_to_end_run (s0 : HospitalSystem) :
    (runAddAnn s0).ret = true ∧
    (runAddBob s0).ret = true ∧
    (runUpdate true s0).ret = true ∧
    (∃ (i : Fin MAX_PATIENTS) (p : Patient),
      find_patient (runUpdate true s0).system "P1" = (i.val : Int) ∧
      (runUpdate true s0).system.patients i = some p ∧
      p.medical_history = "flu, resolved") ∧
    (runRemove true s0).ret = true ∧
    (display_patients (runRemove true s0).system).records
      = [⟨"Ann", "P1", "flu, resolved"⟩] ∧
    ((display_patients (runRemove true s0).system).records.map fun p => p.id) = ["P1"] ∧
    (display_patients (runRemove true s0).system).count = 1 := by
  rw [runAddAnn_eq, runAddBob_eq, runUpdate_eq, runRemove_eq]
  refine ⟨by decide, by decide, by decide, ⟨slot0, ⟨"Ann", "P1", "flu, resolved"⟩,
    by decide, by decide, rfl⟩, by decide, ?_, ?_, by decide⟩
  · set_option maxRecDepth 100000 in decide
  · set_option maxRecDepth 100000 in decide

/-- C13 fails as stated: in the run from `init_hospital_system` in which the
`realloc` of the update returns `NULL`, both adds return `true` but the update
of `"P1"` returns `false` and prints the memory line, and `find_patient` of
`"P1"` gives slot 0, whose record still has the history `"flu"`. -/
theorem end_to_end_run_counterexample :
    (runAddAnn emptySystem).ret = true ∧
    (runAddBob emptySystem).ret = true ∧
    (runUpdate false emptySystem).ret = false ∧
    (runUpdate false emptySystem).printed = some Message.reallocFailed ∧
    find_patient (runUpdate false emptySystem).system "P1" = (slot0.val : Int) ∧
    (runUpdate false emptySystem).system.patients slot0 = some ⟨"Ann", "P1", "flu"⟩ := by
  rw [runAddAnn_eq, runAddBob_eq, runUpdate_eq]
  exact ⟨by decide, by decide, by decide, by decide, by decide, by decide⟩

/-- C16: when `add_patient` returns `true`, the new record, with the given
name, id and medical history, is in the lowest-indexed empty slot of the input
store, every other slot is as it was, and `count` is one higher. -/
theorem add_patient_success_frame (s : HospitalSystem) (name id history : String)
    (hsucc : (add_patient s name id history).ret = true) :
    ∃ k : Fin MAX_PATIENTS,
      s.patients k = none ∧
      (∀ j : Fin MAX_PATIENTS, j < k → s.patients j ≠ none) ∧
      (add_patient s name id history).system.patients k = some ⟨name, id, history⟩ ∧
      (∀ j : Fin MAX_PATIENTS, j ≠ k →
        (add_patient s name id history).system.patients j = s.patients j) ∧
      (add_patient s name id history).system.count = s.count + 1 := by
  rcases add_patient_cases s name id history with ⟨_, he⟩ | ⟨_, k, hk, he⟩ | ⟨_, _, he⟩
  · rw [he] at hsucc
    exact absurd hsucc (by simp)
  · rw [he]
    refine ⟨k, hk.2.1, fun j hj => hk.2.2 j (Nat.zero_le _) hj, by simp, fun j hj => ?_, rfl⟩
    show Function.update s.patients k _ j = s.patients j
    rw [Function.update_noteq hj]
  · rw [he] at hsucc
    exact absurd hsucc (by simp)

/-- Witness of `add_patient_success_frame`: a second record for `storeAnn`. -/
theorem add_patient_success_frame_witness :
    (add_patient storeAnn "Bob" "P2" "cold").ret = true ∧
    ∃ k : Fin MAX_PATIENTS,
      storeAnn.patients k = none ∧
      (∀ j : Fin MAX_PATIENTS, j < k → storeAnn.patients j ≠ none) ∧
      (add_patient storeAnn "Bob" "P2" "cold").system.patients k
        = some ⟨"Bob", "P2", "cold"⟩ ∧
      (∀ j : Fin MAX_PATIENTS, j ≠ k →
        (add_patient storeAnn "Bob" "P2" "cold").system.patients j = storeAnn.patients j) ∧
      (add_patient storeAnn "Bob" "P2" "cold").system.count = storeAnn.count + 1 :=
  ⟨by decide, add_patient_success_frame storeAnn "Bob" "P2" "cold" (by decide)⟩

/-- C17: in a reachable store below capacity that holds a record with id `X`,
`add_patient` with id `X` returns `true` and two different slots then hold
records with id `X`.  In the store that results, `find_patient` returns the
lowest-indexed slot `m` that holds `X`, and `update_medical_history` and
`remove_patient` change no slot other than `m`; `remove_patient` empties `m`
and a record with id `X` is left in another slot. -/
theorem duplicate_ids_first_match (s : HospitalSystem) (name X history : String)
    (hr : Reachable s) (hc : s.count < (MAX_PATIENTS : Int))
    (hheld : ∃ j : Fin MAX_PATIENTS, holdsId s X j) :
    (add_patient s name X history).ret = true ∧
    (∃ a b : Fin MAX_PATIENTS, a ≠ b ∧
      holdsId (add_patient s name X history).system X a ∧
      holdsId (add_patient s name X history).system X b) ∧
    ∃ m : Fin MAX_PATIENTS,
      holdsId (add_patient s name X history).system X m ∧
      (∀ j : Fin MAX_PATIENTS, j < m → ¬ holdsId (add_patient s name X history).system X j) ∧
      find_patient (add_patient s name X history).system X = (m.val : Int) ∧
      (∀ (realloc_ok : Bool) (h : String) (j : Fin MAX_PATIENTS), j ≠ m →
        (update_medical_history realloc_ok (add_patient s name X history).system X
            h).system.patients j
          = (add_patient s name X history).system.patients j) ∧
      (remove_patient (add_patient s name X history).system X).ret = true ∧
      (remove_patient (add_patient s name X history).system X).system.patients m = none ∧
      (∀ j : Fin MAX_PATIENTS, j ≠ m →
        (remove_patient (add_patient s name X history).system X).system.patients j
          = (add_patient s name X history).system.patients j) ∧
      ∃ b : Fin MAX_PATIENTS, b ≠ m ∧
        holdsId (remove_patient (add_patient s name X history).system X).system X b := by
  obtain ⟨k, hk, he⟩ := add_patient_of_countInv hr.countInv hc name X history
  obtain ⟨j0, hj0⟩ := hheld
  have hne : j0 ≠ k := by
    intro hjk
    rw [hjk] at hj0
    exact not_holdsId_of_none hk.2.1 X hj0
  rw [he]
  have hnew : holdsId ⟨Function.update s.patients k (some ⟨name, X, history⟩),
      s.count + 1⟩ X k := (holdsId_update_same _ _ X).2 rfl
  have hold : holdsId ⟨Function.update s.patients k (some ⟨name, X, history⟩),
      s.count + 1⟩ X j0 := (holdsId_update_of_ne hne _ _ X).2 hj0
  refine ⟨rfl, ⟨j0, k, hne, hold, hnew⟩, ?_⟩
  rcases find_patient_cases ⟨Function.update s.patients k (some ⟨name, X, history⟩),
      s.count + 1⟩ X with ⟨_, h2⟩ | ⟨m, h1, h2, h3⟩
  · exact absurd hnew (h2 k)
  · refine ⟨m, h2, h3, h1,
      fun realloc_ok h j hj => update_medical_history_other_slots h1 realloc_ok h j hj, ?_⟩
    rw [remove_patient_found h1]
    refine ⟨rfl, by simp, fun j hj => ?_, ?_⟩
    · dsimp only
      rw [Function.update_noteq hj]
    · by_cases hmk : k = m
      · exact ⟨j0, fun h => hne (h.trans hmk.symm),
          (holdsId_update_of_ne (fun h => hne (h.trans hmk.symm)) none _ X).2 hold⟩
      · exact ⟨k, hmk, (holdsId_update_of_ne hmk none _ X).2 hnew⟩

/-- Witness of `duplicate_ids_first_match`: a second `"P1"` for `storeAnn`. -/
theorem duplicate_ids_first_match_witness :
    (add_patient storeAnn "Bob" "P1" "cold").ret = true ∧
    (∃ a b : Fin MAX_PATIENTS, a ≠ b ∧
      holdsId (add_patient storeAnn "Bob" "P1" "cold").system "P1" a ∧
      holdsId (add_patient storeAnn "Bob" "P1" "cold").system "P1" b) ∧
    ∃ m : Fin MAX_PATIENTS,
      holdsId (add_patient storeAnn "Bob" "P1" "cold").system "P1" m ∧
      (∀ j : Fin MAX_PATIENTS, j < m →
        ¬ holdsId (add_patient storeAnn "Bob" "P1" "cold").system "P1" j) ∧
      find_patient (add_patient storeAnn "Bob" "P1" "cold").system "P1" = (m.val : Int) ∧
      (∀ (realloc_ok : Bool) (h : String) (j : Fin MAX_PATIENTS), j ≠ m →
        (update_medical_history realloc_ok (add_patient storeAnn "Bob" "P1" "cold").system
            "P1" h).system.patients j
          = (add_patient storeAnn "Bob" "P1" "cold").system.patients j) ∧
      (remove_patient (add_patient storeAnn "Bob" "P1" "cold").system "P1").ret = true ∧
      (remove_patient (add_patient storeAnn "Bob" "P1" "cold").system "P1").system.patients m
        = none ∧
      (∀ j : Fin MAX_PATIENTS, j ≠ m →
        (remove_patient (add_patient storeAnn "Bob" "P1" "cold").system "P1").system.patients j
          = (add_patient storeAnn "Bob" "P1" "cold").system.patients j) ∧
      ∃ b : Fin MAX_PATIENTS, b ≠ m ∧
        holdsId (remove_patient (add_patient storeAnn "Bob" "P1" "cold").system "P1").system
          "P1" b :=
  duplicate_ids_first_match storeAnn "Bob" "P1" "cold"
    (Reachable.add _ _ _ reachable_emptySystem) (by decide) ⟨slot0, by decide⟩

/-- C18 (amended): in a store with `count < MAX_PATIENTS` that has an empty
slot, as every reachable store below capacity has, `add_patient` returns
`true` for every history and stores it unmodified, also when it is longer than
`MAX_HISTORY_LENGTH` (4096) bytes; the result of a reachable store is
reachable; and `update_medical_history` with the same id and such a long
history is rejected on the resulting store with the too-long line. -/
theorem add_patient_keeps_long_history (s : HospitalSystem) (name id h : String)
    (hc : s.count < (MAX_PATIENTS : Int))
    (hfree : ∃ j : Fin MAX_PATIENTS, s.patients j = none) :
    (add_patient s name id h).ret = true ∧
    (∃ k : Fin MAX_PATIENTS,
      (add_patient s name id h).system.patients k = some ⟨name, id, h⟩) ∧
    (Reachable s → Reachable (add_patient s name id h).system) ∧
    (MAX_HISTORY_LENGTH < strlen h → ∀ realloc_ok : Bool,
      (update_medical_history realloc_ok (add_patient s name id h).system id h).ret = false ∧
      (update_medical_history realloc_ok (add_patient s name id h).system id h).printed
        = some Message.historyTooLong) := by
  refine ⟨?_, ?_, fun hr => Reachable.add name id h hr, ?_⟩
  all_goals
    rcases add_patient_cases s name id h with ⟨hfull, _⟩ | ⟨_, k, _, he⟩ | ⟨_, hnone, _⟩
    · omega
    rotate_left
    · obtain ⟨j, hj⟩ := hfree
      exact absurd hj (hnone j)
  · rw [he]
  · rw [he]
    exact ⟨k, by simp⟩
  · intro hlen realloc_ok
    rw [he]
    have hnew : holdsId ⟨Function.update s.patients k (some ⟨name, id, h⟩),
        s.count + 1⟩ id k := (holdsId_update_same _ _ id).2 rfl
    rcases find_patient_cases ⟨Function.update s.patients k (some ⟨name, id, h⟩),
        s.count + 1⟩ id with ⟨_, h2⟩ | ⟨m, h1, _, _⟩
    · exact absurd hnew (h2 k)
    · rw [update_medical_history_too_long h1 realloc_ok hlen]
      exact ⟨rfl, rfl⟩

/-- Witness of `add_patient_keeps_long_history`: a history of 4097 bytes added
to the empty store. -/
theorem add_patient_keeps_long_history_witness :
    MAX_HISTORY_LENGTH < strlen longHistory ∧
    (add_patient emptySystem "Ann" "P1" longHistory).ret = true ∧
    (∃ k : Fin MAX_PATIENTS,
      (add_patient emptySystem "Ann" "P1" longHistory).system.patients k
        = some ⟨"Ann", "P1", longHistory⟩) ∧
    (Reachable emptySystem →
      Reachable (add_patient emptySystem "Ann" "P1" longHistory).system) ∧
    (MAX_HISTORY_LENGTH < strlen longHistory → ∀ realloc_ok : Bool,
      (update_medical_history realloc_ok
          (add_patient emptySystem "Ann" "P1" longHistory).system "P1" longHistory).ret
        = false ∧
      (update_medical_history realloc_ok
          (add_patient emptySystem "Ann" "P1" longHistory).system "P1" longHistory).printed
        = some Message.historyTooLong) :=
  ⟨by rw [strlen_longHistory]; exact Nat.lt_succ_self _,
    add_patient_keeps_long_history emptySystem "Ann" "P1" longHistory (by decide)
      ⟨slot0, rfl⟩⟩

/-- C18 fails as stated: `storeCrowded` has `count = 0 < MAX_PATIENTS` but no
empty slot, and `add_patient` returns `false` there and leaves the store as it
was, so the history is not stored. -/
theorem add_patient_keeps_long_history_counterexample :
    storeCrowded.count < (MAX_PATIENTS : Int) ∧
    (add_patient storeCrowded "Bob" "P2" longHistory).ret = false ∧
    (add_patient storeCrowded "Bob" "P2" longHistory).system = storeCrowded := by
  refine ⟨by decide, ?_⟩
  rcases add_patient_cases storeCrowded "Bob" "P2" longHistory with
    ⟨hfull, _⟩ | ⟨_, k, hk, _⟩ | ⟨_, _, he⟩
  · exact absurd hfull (by decide)
  · exact absurd hk.2.1 (by simp [storeCrowded])
  · rw [he]
    exact ⟨rfl, rfl⟩

/-- C19: in a reachable store below capacity, for an id that no occupied slot
holds, `add_patient` returns `true` and the `find_patient` that follows
returns the slot just filled, which was empty and now holds exactly the given
name, id and medical history; and when the ids of the input store are pairwise
distinct, so are the ids of the resulting store. -/
theorem add_fresh_id (s : HospitalSystem) (name id history : String)
    (hr : Reachable s) (hc : s.count < (MAX_PATIENTS : Int))
    (hfresh : ∀ j : Fin MAX_PATIENTS, ¬ holdsId s id j) :
    (add_patient s name id history).ret = true ∧
    (∃ k : Fin MAX_PATIENTS,
      s.patients k = none ∧
      find_patient (add_patient s name id history).system id = (k.val : Int) ∧
      (add_patient s name id history).system.patients k = some ⟨name, id, history⟩) ∧
    (DistinctIds s → DistinctIds (add_patient s name id history).system) := by
  obtain ⟨k, hk, he⟩ := add_patient_of_countInv hr.countInv hc name id history
  rw [he]
  have hat : ∀ (j : Fin MAX_PATIENTS) (p : Patient),
      Function.update s.patients k (some ⟨name, id, history⟩) j = some p →
      (j = k ∧ p = ⟨name, id, history⟩) ∨ (j ≠ k ∧ s.patients j = some p) := by
    intro j p hp
    by_cases hjk : j = k
    · subst hjk
      rw [Function.update_same] at hp
      exact Or.inl ⟨rfl, (Option.some.inj hp).symm⟩
    · rw [Function.update_noteq hjk] at hp
      exact Or.inr ⟨hjk, hp⟩
  refine ⟨rfl, ⟨k, hk.2.1, ?_, by simp⟩, ?_⟩
  · apply find_patient_eq_index
    · exact (holdsId_update_same _ _ id).2 rfl
    · intro j hjk hh
      exact hfresh j ((holdsId_update_of_ne (ne_of_lt hjk) _ _ id).1 hh)
  · intro hd a b p q hp hq hpq
    rcases hat a p hp with ⟨ha, hpa⟩ | ⟨_, hpa⟩ <;> rcases hat b q hq with ⟨hb, hqb⟩ | ⟨_, hqb⟩
    · rw [ha, hb]
    · exfalso
      apply hfresh b
      rw [holdsId_of_some hqb, ← hpq, hpa]
    · exfalso
      apply hfresh a
      rw [holdsId_of_some hpa, hpq, hqb]
    · exact hd a b p q hpa hqb hpq

/-- Witness of `add_fresh_id`: the id `"P2"` is new to `storeAnn`. -/
theorem add_fresh_id_witness :
    (add_patient storeAnn "Bob" "P2" "cold").ret = true ∧
    (∃ k : Fin MAX_PATIENTS,
      storeAnn.patients k = none ∧
      find_patient (add_patient storeAnn "Bob" "P2" "cold").system "P2" = (k.val : Int) ∧
      (add_patient storeAnn "Bob" "P2" "cold").system.patients k
        = some ⟨"Bob", "P2", "cold"⟩) ∧
    (DistinctIds storeAnn → DistinctIds (add_patient storeAnn "Bob" "P2" "cold").system) :=
  add_fresh_id storeAnn "Bob" "P2" "cold" (Reachable.add _ _ _ reachable_emptySystem)
    (by decide) (fun j hj => by
      have h0 := storeAnn_holds_only_slot0 "P2" j hj
      subst h0
      exact absurd hj (by decide))

/-- C20: when exactly one occupied slot holds a record with id `X`,
`remove_patient` of `X` returns `true`, the `find_patient` of `X` that follows
returns `-1`, and `find_patient` of every other id returns what it returned
before the removal. -/
theorem remove_unique_id (s : HospitalSystem) (X : String)
    (hone : ∃! k : Fin MAX_PATIENTS, holdsId s X k) :
    (remove_patient s X).ret = true ∧
    find_patient (remove_patient s X).system X = -1 ∧
    ∀ Y : String, Y ≠ X → find_patient (remove_patient s X).system Y = find_patient s Y := by
  obtain ⟨k, hk, huniq⟩ := hone
  have hfind : find_patient s X = (k.val : Int) :=
    find_patient_eq_index hk fun j hjk hj => absurd (huniq j hj) (ne_of_lt hjk)
  obtain ⟨p, hp, hpid⟩ := (holdsId_iff s X k).1 hk
  rw [remove_patient_found hfind]
  refine ⟨rfl, ?_, fun Y hY => ?_⟩
  · apply find_patient_eq_neg_one
    intro j hj
    by_cases hjk : j = k
    · rw [hjk] at hj
      exact not_holdsId_update_none _ X hj
    · exact hjk (huniq j ((holdsId_update_of_ne hjk none _ X).1 hj))
  · apply find_patient_congr
    intro j
    by_cases hjk : j = k
    · rw [hjk]
      constructor
      · intro hj
        exact absurd hj (not_holdsId_update_none _ Y)
      · intro hj
        rw [holdsId_of_some hp] at hj
        exact absurd (hpid.symm.trans hj).symm hY
    · exact holdsId_update_of_ne hjk none _ Y

/-- Witness of `remove_unique_id`: `storeAnn` holds `"P1"` in slot 0 only. -/
theorem remove_unique_id_witness :
    (∃! k : Fin MAX_PATIENTS, holdsId storeAnn "P1" k) ∧
    ((remove_patient storeAnn "P1").ret = true ∧
      find_patient (remove_patient storeAnn "P1").system "P1" = -1 ∧
      ∀ Y : String, Y ≠ "P1" →
        find_patient (remove_patient storeAnn "P1").system Y = find_patient storeAnn Y) :=
  ⟨⟨slot0, by decide, fun j hj => storeAnn_holds_only_slot0 "P1" j hj⟩,
    remove_unique_id storeAnn "P1"
      ⟨slot0, by decide, fun j hj => storeAnn_holds_only_slot0 "P1" j hj⟩⟩

end PatientRecords
